import Mathlib

/-! Boost.Preprocessor excerpt: the `BOOST_PP_WHILE` rule family and its clients.

A shallow embedding of `boost/preprocessor/while.hpp`, `list/rest_n.hpp`,
`comparison/less_equal.hpp` and `logical/nor.hpp`.  A function-like rule of the
preprocessor becomes a Lean function from its arguments to its expansion; an
expansion that ends in the text `RECURSION DEPTH EXCEEDED!` (or names a rule that
does not exist) becomes an `Except.error`.

The first part of the file holds the definitions, the second part the lemmas and the
theorems about them.
-/

namespace BoostPP

/-! ## Outcomes of an expansion -/

/-- The ways an expansion of `BOOST_PP_WHILE##D` can fail to produce a state. -/
inductive WhileError where
  /-- The expansion reached rule `BOOST_PP_WHILE258` or `BOOST_PP_WHILE259`, whose
  body is the text `RECURSION DEPTH EXCEEDED!`. -/
  | recursionDepthExceeded (rule : Nat)
  /-- The name `BOOST_PP_WHILE##D` is not defined (`D ≥ 260`). -/
  | undefinedRule (rule : Nat)
  deriving DecidableEq, Repr

deriving instance DecidableEq for Except

/-! ## Collaborators that live outside the excerpt -/

/-- Modelled from the spec: `BOOST_PP_IF(C,T,E)` of `boost/preprocessor/if.hpp`, which
is not part of the excerpt: the boolean-to-branch selector `If(cond, thenRule, elseRule)`.
The condition is a decimal integer literal; a non-zero literal selects `T`. -/
def BOOST_PP_IF {β : Type} (C : Nat) (T E : β) : β :=
  if C ≠ 0 then T else E

/-- Modelled from the spec: `X BOOST_PP_TUPLE3_EAT` of `boost/preprocessor/tuple/eat.hpp`,
which is not part of the excerpt: the text `X` followed by a rule that consumes the
argument triple `(C,F,X')` placed after it and expands to nothing.  `C` and `F` are the
same for the whole chain, so only the third component is an argument here. -/
def BOOST_PP_TUPLE3_EAT {α β : Type} (X : β) : α → β :=
  fun _ => X

/-- Modelled from the spec: `BOOST_PP_DEC(X)` of `boost/preprocessor/dec.hpp`, which is not
part of the excerpt: the decrement of a decimal literal, with `BOOST_PP_DEC(0)` being 0. -/
def BOOST_PP_DEC (X : Nat) : Nat := X - 1

/-- Modelled from the spec: `BOOST_PP_TUPLE2_ELEM0 (A,B)`, the fixed-arity tuple projection
of `boost/preprocessor/tuple/elem.hpp` (not part of the excerpt); it is also what
`BOOST_PP_TUPLE_ELEM(2,0,(A,B))` expands to. -/
def BOOST_PP_TUPLE2_ELEM0 {α β : Type} (X : α × β) : α := X.1

/-- Modelled from the spec: `BOOST_PP_TUPLE2_ELEM1 (A,B)`, the fixed-arity tuple projection
of `boost/preprocessor/tuple/elem.hpp` (not part of the excerpt); it is also what
`BOOST_PP_TUPLE_ELEM(2,1,(A,B))` expands to. -/
def BOOST_PP_TUPLE2_ELEM1 {α β : Type} (X : α × β) : β := X.2

/-- Modelled from the spec: `BOOST_PP_TUPLE3_ELEM1` applied to the text of a list slot.
The list data of `boost/preprocessor/list/adt.hpp` is not part of the excerpt: a list is
a 3-tuple, `BOOST_PP_LIST_CONS(H,T)` being `(H,T,1)` and `BOOST_PP_LIST_NIL` being
`(_,_,0)`.  The text of a slot is `some L` when it is a list and `none` when it is not
(the placeholder `_`, or a projection that could not be expanded).  The second element
of a non-empty list is its tail; the second element of the empty list is the
placeholder, and text that is not a tuple has no second element. -/
def BOOST_PP_TUPLE3_ELEM1 {τ : Type} : Option (List τ) → Option (List τ)
  | some (_ :: T) => some T
  | some [] => none
  | none => none

/-- Modelled from the spec: `BOOST_PP_LIMIT_MAG`, the largest supported magnitude, which is
defined outside the excerpt (128). -/
def BOOST_PP_LIMIT_MAG : Nat := 128

/-- Modelled from the spec: `BOOST_PP_BOOL(X)` of `boost/preprocessor/logical/bool.hpp`,
which is not part of the excerpt: the boolean conversion, 0 for 0 and 1 for non-zero. -/
def BOOST_PP_BOOL (X : Nat) : Nat := if X = 0 then 0 else 1

/-- Modelled from the spec: `BOOST_PP_NOT(X)` of `boost/preprocessor/logical/not.hpp`,
which is not part of the excerpt: it maps 0 to 1 and non-zero to 0. -/
def BOOST_PP_NOT (X : Nat) : Nat := if X = 0 then 1 else 0

/-! ## `while.hpp` -/

section Engine

variable {α β : Type}

/-- `BOOST_PP_WHILE_C(C,D,X)` is `BOOST_PP_IF(C,BOOST_PP_WHILE##D,X BOOST_PP_TUPLE3_EAT)`:
the rule that will consume the triple `(C,F,F(d,X))` written after it.  `next` is rule
`BOOST_PP_WHILE##D` with `C` and `F` already supplied. -/
def BOOST_PP_WHILE_C (c : Nat) (next : β → Except WhileError α) (X : α) :
    β → Except WhileError α :=
  BOOST_PP_IF c next (BOOST_PP_TUPLE3_EAT (Except.ok X))

/-- The rules `BOOST_PP_WHILE##D`, ..., `BOOST_PP_WHILE258`, read from rule `D` upwards;
the first argument is the number `258 - D` of dispatching rules between `D` and the
poisoned rule 258.  Rule `D ≤ 257` is
`BOOST_PP_WHILE_C(C(D+2,X),D+1,X)(C,F,F(D+2,X))`, rule 258 is `RECURSION DEPTH EXCEEDED!`. -/
def whileRules (C : Nat → α → Nat) (F : Nat → α → α) :
    Nat → Nat → α → Except WhileError α
  | 0, D, _ => Except.error (WhileError.recursionDepthExceeded D)
  | n + 1, D, X =>
      BOOST_PP_WHILE_C (C (D + 2) X) (whileRules C F n (D + 1)) X (F (D + 2) X)

/-- The depth-tagged rule `BOOST_PP_WHILE##D(C,F,X)`: rules 0..257 dispatch, rules 258
and 259 are `RECURSION DEPTH EXCEEDED!`, and no rule is defined past 259. -/
def BOOST_PP_WHILE_D (C : Nat → α → Nat) (F : Nat → α → α) (D : Nat) (X : α) :
    Except WhileError α :=
  if D ≤ 258 then whileRules C F (258 - D) D X
  else if D = 259 then Except.error (WhileError.recursionDepthExceeded 259)
  else Except.error (WhileError.undefinedRule D)

/-- The entry rule `BOOST_PP_WHILE(C,F,X)`, which is
`BOOST_PP_WHILE_C(C(1,X),0,X)(C,F,F(1,X))`. -/
def BOOST_PP_WHILE (C : Nat → α → Nat) (F : Nat → α → α) (X : α) : Except WhileError α :=
  BOOST_PP_WHILE_C (C 1 X) (BOOST_PP_WHILE_D C F 0) X (F 1 X)

/-- Manual unrolling: `unroll F t X i` applies `F` `i` times, the first time with depth
tag `t`, then `t+1`, ...; with `t = 1` it is `X_i` where `X_j = F(j, X_(j-1))`. -/
def unroll (F : Nat → α → α) (t : Nat) (X : α) : Nat → α
  | 0 => X
  | i + 1 => F (t + i) (unroll F t X i)

/-- The condition is true at the first `k` points of the unrolling that starts with tag
`t` and false at the next one: `C(t+j, Y_j) ≠ 0` for `j < k` and `C(t+k, Y_k) = 0`. -/
def EndsAfter (C : Nat → α → Nat) (F : Nat → α → α) (t : Nat) (X : α) (k : Nat) : Prop :=
  (∀ j, j < k → C (t + j) (unroll F t X j) ≠ 0) ∧ C (t + k) (unroll F t X k) = 0

instance (C : Nat → α → Nat) (F : Nat → α → α) (t : Nat) (X : α) (k : Nat) :
    Decidable (EndsAfter C F t X k) := by
  unfold EndsAfter; exact inferInstance

/-- The condition is true at the first `n` points of the unrolling that starts at tag `t`. -/
def AllTrue (C : Nat → α → Nat) (F : Nat → α → α) (t : Nat) (X : α) (n : Nat) : Prop :=
  ∀ j, j < n → C (t + j) (unroll F t X j) ≠ 0

/-! ### The same rules with a record of the tags they hand out -/

/-- What a dispatching rule does with a depth tag. -/
inductive Event where
  /-- The text `C(tag,X)` is expanded as the condition argument of `BOOST_PP_WHILE_C`. -/
  | cond (tag : Nat)
  /-- The text `F(tag,X)` is handed as the state argument to the rule that
  `BOOST_PP_WHILE_C` selected for the continuation. -/
  | step (tag : Nat)
  deriving DecidableEq, Repr

/-- The depth tag of an event. -/
def Event.tag : Event → Nat
  | Event.cond d => d
  | Event.step d => d

/-- The tags at which the condition was evaluated, in order. -/
def condTags : List Event → List Nat
  | [] => []
  | Event.cond d :: es => d :: condTags es
  | Event.step _ :: es => condTags es

/-- The tags with which the step was applied, in order. -/
def stepTags : List Event → List Nat
  | [] => []
  | Event.cond _ :: es => stepTags es
  | Event.step d :: es => d :: stepTags es

/-- The record of `m` full iterations whose first tag is `t`: condition at `t`, step at
`t`, condition at `t+1`, step at `t+1`, ... -/
def tagPairs : Nat → Nat → List Event
  | _, 0 => []
  | t, m + 1 => Event.cond t :: Event.step t :: tagPairs (t + 1) m

/-- The rules of `whileRules`, returning also the events in the order they happen.  A
poisoned rule ignores its arguments; a dispatching rule evaluates `C(D+2,X)` and, when it
is non-zero, hands `F(D+2,X)` to rule `D+1`; when it is zero `F(D+2,X)` is eaten. -/
def whileRulesTraced (C : Nat → α → Nat) (F : Nat → α → α) :
    Nat → Nat → α → List Event × Except WhileError α
  | 0, D, _ => ([], Except.error (WhileError.recursionDepthExceeded D))
  | n + 1, D, X =>
      if C (D + 2) X ≠ 0 then
        let r := whileRulesTraced C F n (D + 1) (F (D + 2) X)
        (Event.cond (D + 2) :: Event.step (D + 2) :: r.1, r.2)
      else ([Event.cond (D + 2)], Except.ok X)

/-- The depth-tagged rule `BOOST_PP_WHILE##D(C,F,X)` with its events. -/
def BOOST_PP_WHILE_D_traced (C : Nat → α → Nat) (F : Nat → α → α) (D : Nat) (X : α) :
    List Event × Except WhileError α :=
  if D ≤ 258 then whileRulesTraced C F (258 - D) D X
  else if D = 259 then ([], Except.error (WhileError.recursionDepthExceeded 259))
  else ([], Except.error (WhileError.undefinedRule D))

/-- The entry rule `BOOST_PP_WHILE(C,F,X)` with its events. -/
def BOOST_PP_WHILE_traced (C : Nat → α → Nat) (F : Nat → α → α) (X : α) :
    List Event × Except WhileError α :=
  if C 1 X ≠ 0 then
    let r := BOOST_PP_WHILE_D_traced C F 0 (F 1 X)
    (Event.cond 1 :: Event.step 1 :: r.1, r.2)
  else ([Event.cond 1], Except.ok X)

/-! ### The same rules for a step that itself invokes depth-tagged rules -/

/-- The rules of `whileRules` for a step `F(D,X)` whose own expansion uses
`BOOST_PP_WHILE##D` and so may itself end in a poisoned rule: the text handed to rule
`D+1` is then not a state, and the whole expansion is poisoned. -/
def whileRulesNested (C : Nat → α → Nat) (F : Nat → α → Except WhileError α) :
    Nat → Nat → α → Except WhileError α
  | 0, D, _ => Except.error (WhileError.recursionDepthExceeded D)
  | n + 1, D, X =>
      BOOST_PP_WHILE_C (C (D + 2) X) (fun r => Except.bind r (whileRulesNested C F n (D + 1)))
        X (F (D + 2) X)

/-- The depth-tagged rule `BOOST_PP_WHILE##D(C,F,X)` for a step that may be poisoned. -/
def BOOST_PP_WHILE_D_nested (C : Nat → α → Nat) (F : Nat → α → Except WhileError α)
    (D : Nat) (X : α) : Except WhileError α :=
  if D ≤ 258 then whileRulesNested C F (258 - D) D X
  else if D = 259 then Except.error (WhileError.recursionDepthExceeded 259)
  else Except.error (WhileError.undefinedRule D)

/-- The entry rule `BOOST_PP_WHILE(C,F,X)` for a step that may be poisoned. -/
def BOOST_PP_WHILE_nested (C : Nat → α → Nat) (F : Nat → α → Except WhileError α)
    (X : α) : Except WhileError α :=
  BOOST_PP_WHILE_C (C 1 X) (fun r => Except.bind r (BOOST_PP_WHILE_D_nested C F 0))
    X (F 1 X)

end Engine

/-! ## Example loops -/

/-- Condition of the countdown loop: the counter itself (non-zero means continue). -/
def countC (_D : Nat) (n : Nat) : Nat := n

/-- Step of the countdown loop: decrement the counter. -/
def countF (_D : Nat) (n : Nat) : Nat := n - 1

/-- The condition of the summing example, `C(D,(sum,n)) = (n != 0)`. -/
def sumC (_D : Nat) (X : Nat × Nat) : Nat := if X.2 ≠ 0 then 1 else 0

/-- The step of the summing example, `F(D,(sum,n)) = (sum+n, n-1)`. -/
def sumF (_D : Nat) (X : Nat × Nat) : Nat × Nat := (X.1 + X.2, X.2 - 1)

/-! ## `list/rest_n.hpp` -/

section RestN

variable {τ : Type}

/-- `BOOST_PP_LIST_REST_N_C(D,X)` is `BOOST_PP_TUPLE2_ELEM1 X`: the count. -/
def BOOST_PP_LIST_REST_N_C (_D : Nat) (X : Option (List τ) × Nat) : Nat :=
  BOOST_PP_TUPLE2_ELEM1 X

/-- `BOOST_PP_LIST_REST_N_F(D,X)` is
`(BOOST_PP_TUPLE3_ELEM1 BOOST_PP_TUPLE2_ELEM0 X,BOOST_PP_DEC(BOOST_PP_TUPLE2_ELEM1 X))`. -/
def BOOST_PP_LIST_REST_N_F (_D : Nat) (X : Option (List τ) × Nat) :
    Option (List τ) × Nat :=
  (BOOST_PP_TUPLE3_ELEM1 (BOOST_PP_TUPLE2_ELEM0 X), BOOST_PP_DEC (BOOST_PP_TUPLE2_ELEM1 X))

/-- `BOOST_PP_LIST_REST_N_D(D,N,L)` is `BOOST_PP_TUPLE_ELEM(2,0,BOOST_PP_WHILE##D(
BOOST_PP_LIST_REST_N_C,BOOST_PP_LIST_REST_N_F,(L,N)))`. -/
def BOOST_PP_LIST_REST_N_D (D N : Nat) (L : List τ) : Except WhileError (Option (List τ)) :=
  Except.map BOOST_PP_TUPLE2_ELEM0
    (BOOST_PP_WHILE_D BOOST_PP_LIST_REST_N_C BOOST_PP_LIST_REST_N_F D (some L, N))

/-- `BOOST_PP_LIST_REST_N(N,L)` is `BOOST_PP_LIST_REST_N_D(0,N,L)`. -/
def BOOST_PP_LIST_REST_N (N : Nat) (L : List τ) : Except WhileError (Option (List τ)) :=
  BOOST_PP_LIST_REST_N_D 0 N L

end RestN

/-- The four operator tokens of the example in `rest_n.hpp`: `+`, `-`, `*`, `/`. -/
inductive OpToken where
  | plus | minus | times | divide
  deriving DecidableEq, Repr

/-! ## `comparison/less_equal.hpp` -/

/-- Modelled from the spec: condition of the loop of `BOOST_PP_SUB_D`
(`boost/preprocessor/arithmetic/sub.hpp`, not part of the excerpt): the second element
of the state, the number of decrements still to do. -/
def BOOST_PP_SUB_C (_D : Nat) (RC : Nat × Nat) : Nat := BOOST_PP_TUPLE2_ELEM1 RC

/-- Modelled from the spec: step of the loop of `BOOST_PP_SUB_D`
(`boost/preprocessor/arithmetic/sub.hpp`, not part of the excerpt): both elements are
decremented. -/
def BOOST_PP_SUB_F (_D : Nat) (RC : Nat × Nat) : Nat × Nat :=
  (BOOST_PP_DEC (BOOST_PP_TUPLE2_ELEM0 RC), BOOST_PP_DEC (BOOST_PP_TUPLE2_ELEM1 RC))

/-- Modelled from the spec: `BOOST_PP_SUB_D(D,X,Y)` of
`boost/preprocessor/arithmetic/sub.hpp`, which is not part of the excerpt: the saturating
subtraction (`X-Y`, or 0 when `Y > X`), computed by `Y` iterations of
`BOOST_PP_WHILE##D` on the state `(X,Y)`. -/
def BOOST_PP_SUB_D (D X Y : Nat) : Except WhileError Nat :=
  Except.map BOOST_PP_TUPLE2_ELEM0 (BOOST_PP_WHILE_D BOOST_PP_SUB_C BOOST_PP_SUB_F D (X, Y))

/-- `BOOST_PP_LESS_EQUAL_D(D,X,Y)` is `BOOST_PP_NOT(BOOST_PP_SUB_D(D,X,Y))`. -/
def BOOST_PP_LESS_EQUAL_D (D X Y : Nat) : Except WhileError Nat :=
  Except.map BOOST_PP_NOT (BOOST_PP_SUB_D D X Y)

/-- `BOOST_PP_LESS_EQUAL(X,Y)` is `BOOST_PP_LESS_EQUAL_D(0,X,Y)`. -/
def BOOST_PP_LESS_EQUAL (X Y : Nat) : Except WhileError Nat :=
  BOOST_PP_LESS_EQUAL_D 0 X Y

/-! ## `logical/nor.hpp` -/

/-- `BOOST_PP_NOR_BOOL_DELAY(X,Y)` is `BOOST_PP_NOR_BOOL##X##Y`: the pasted name is one
of the four table entries `BOOST_PP_NOR_BOOL00` = 1, `BOOST_PP_NOR_BOOL01` = 0,
`BOOST_PP_NOR_BOOL10` = 0, `BOOST_PP_NOR_BOOL11` = 0, or a name that is not defined. -/
def BOOST_PP_NOR_BOOL_DELAY (X Y : Nat) : Option Nat :=
  match X, Y with
  | 0, 0 => some 1
  | 0, 1 => some 0
  | 1, 0 => some 0
  | 1, 1 => some 0
  | _, _ => none

/-- `BOOST_PP_NOR_BOOL(X,Y)` is `BOOST_PP_NOR_BOOL_DELAY(X,Y)`. -/
def BOOST_PP_NOR_BOOL (X Y : Nat) : Option Nat := BOOST_PP_NOR_BOOL_DELAY X Y

/-- `BOOST_PP_NOR(X,Y)` is `BOOST_PP_NOR_BOOL(BOOST_PP_BOOL(X),BOOST_PP_BOOL(Y))`. -/
def BOOST_PP_NOR (X Y : Nat) : Option Nat :=
  BOOST_PP_NOR_BOOL (BOOST_PP_BOOL X) (BOOST_PP_BOOL Y)

/-! ## The `BOOST_PP_MUL` example documented in `while.hpp` -/

/-- Modelled from the spec: `BOOST_PP_INC(X)` of `boost/preprocessor/inc.hpp`, which is not
part of the excerpt: the increment, taken exact on the naturals. -/
def BOOST_PP_INC (X : Nat) : Nat := X + 1

/-- Modelled from the spec: `BOOST_PP_TUPLE_ELEM(3,0,(A,B,C))`, the fixed-arity tuple
projection of `boost/preprocessor/tuple/elem.hpp` (not part of the excerpt). -/
def BOOST_PP_TUPLE_ELEM_3_0 {α β γ : Type} (P : α × β × γ) : α := P.1

/-- Modelled from the spec: `BOOST_PP_TUPLE_ELEM(3,1,(A,B,C))`, the fixed-arity tuple
projection of `boost/preprocessor/tuple/elem.hpp` (not part of the excerpt). -/
def BOOST_PP_TUPLE_ELEM_3_1 {α β γ : Type} (P : α × β × γ) : β := P.2.1

/-- Modelled from the spec: `BOOST_PP_TUPLE_ELEM(3,2,(A,B,C))`, the fixed-arity tuple
projection of `boost/preprocessor/tuple/elem.hpp` (not part of the excerpt). -/
def BOOST_PP_TUPLE_ELEM_3_2 {α β γ : Type} (P : α × β × γ) : γ := P.2.2

/-- Modelled from the spec: condition of the loop of `BOOST_PP_ADD_D`
(`boost/preprocessor/arithmetic/add.hpp`, not part of the excerpt): the second element
of the state, the number of increments still to do. -/
def BOOST_PP_ADD_C (_D : Nat) (P : Nat × Nat) : Nat := BOOST_PP_TUPLE2_ELEM1 P

/-- Modelled from the spec: step of the loop of `BOOST_PP_ADD_D`
(`boost/preprocessor/arithmetic/add.hpp`, not part of the excerpt): the first element is
incremented and the second decremented. -/
def BOOST_PP_ADD_F (_D : Nat) (P : Nat × Nat) : Nat × Nat :=
  (BOOST_PP_INC (BOOST_PP_TUPLE2_ELEM0 P), BOOST_PP_DEC (BOOST_PP_TUPLE2_ELEM1 P))

/-- Modelled from the spec: `BOOST_PP_ADD_D(D,X,Y)` of
`boost/preprocessor/arithmetic/add.hpp`, which is not part of the excerpt: the addition,
computed by `Y` iterations of `BOOST_PP_WHILE##D` on the state `(X,Y)`. -/
def BOOST_PP_ADD_D (D X Y : Nat) : Except WhileError Nat :=
  Except.map BOOST_PP_TUPLE2_ELEM0 (BOOST_PP_WHILE_D BOOST_PP_ADD_C BOOST_PP_ADD_F D (X, Y))

/-- `BOOST_PP_MUL_C(D,P)` of the documented example is `BOOST_PP_TUPLE_ELEM(3,2,P)`:
iteration is finished when the counter reaches 0. -/
def BOOST_PP_MUL_C (_D : Nat) (P : Nat × Nat × Nat) : Nat := BOOST_PP_TUPLE_ELEM_3_2 P

/-- `BOOST_PP_MUL_F(D,P)` of the documented example is
`( BOOST_PP_ADD_D(D,BOOST_PP_TUPLE_ELEM(3,0,P),BOOST_PP_TUPLE_ELEM(3,1,P))
, BOOST_PP_TUPLE_ELEM(3,1,P), BOOST_PP_DEC(BOOST_PP_TUPLE_ELEM(3,2,P)) )`. -/
def BOOST_PP_MUL_F (D : Nat) (P : Nat × Nat × Nat) : Except WhileError (Nat × Nat × Nat) :=
  Except.map
    (fun r => (r, BOOST_PP_TUPLE_ELEM_3_1 P, BOOST_PP_DEC (BOOST_PP_TUPLE_ELEM_3_2 P)))
    (BOOST_PP_ADD_D D (BOOST_PP_TUPLE_ELEM_3_0 P) (BOOST_PP_TUPLE_ELEM_3_1 P))

/-- `BOOST_PP_MUL_D(D,X,Y)` of the documented example is `BOOST_PP_TUPLE_ELEM(3,0,
BOOST_PP_WHILE##D(BOOST_PP_MUL_C,BOOST_PP_MUL_F,(0,X,Y)))`. -/
def BOOST_PP_MUL_D (D X Y : Nat) : Except WhileError Nat :=
  Except.map BOOST_PP_TUPLE_ELEM_3_0
    (BOOST_PP_WHILE_D_nested BOOST_PP_MUL_C BOOST_PP_MUL_F D (0, X, Y))

/-- `BOOST_PP_MUL(X,Y)` of the documented example is `BOOST_PP_MUL_D(0,X,Y)`. -/
def BOOST_PP_MUL (X Y : Nat) : Except WhileError Nat := BOOST_PP_MUL_D 0 X Y

/-! ## Rules under expansion

The preprocessor does not expand a rule whose own expansion is still in progress.  The
definitions of this section repeat the rule family with the list of rules under
expansion as an explicit argument, so that re-entering a rule becomes a failure of its
own kind. -/

/-- A rule of the family: the entry rule `BOOST_PP_WHILE` or a depth-tagged rule
`BOOST_PP_WHILE##D`. -/
inductive Rule where
  | entry
  | tagged (D : Nat)
  deriving DecidableEq, Repr

/-- The ways an expansion that keeps track of the rules under expansion can fail. -/
inductive ExpansionError where
  /-- A failure of the rule family itself. -/
  | whileError (e : WhileError)
  /-- A rule was named while its own expansion was still in progress; the preprocessor
  leaves such a name unexpanded. -/
  | reentered (r : Rule)
  deriving DecidableEq, Repr

section Guarded

variable {α : Type}

/-- The rules of `whileRules` with the list `active` of rules under expansion.  A step
is given the list of rules that are under expansion while its text `F(D+2,X)` is
expanded: it is expanded as an argument of rule `D+1` inside the body of rule `D`, so
rule `D` has joined the list and rule `D+1` has not.  Rule `D+1` is invoked from inside
the body of rule `D`, so rule `D` stays under expansion for the rest of the chain. -/
def whileRulesGuarded (C : Nat → α → Nat)
    (F : List Rule → Nat → α → Except ExpansionError α) :
    Nat → Nat → List Rule → α → Except ExpansionError α
  | 0, D, active, _ =>
      if Rule.tagged D ∈ active then Except.error (ExpansionError.reentered (Rule.tagged D))
      else Except.error (ExpansionError.whileError (WhileError.recursionDepthExceeded D))
  | n + 1, D, active, X =>
      if Rule.tagged D ∈ active then Except.error (ExpansionError.reentered (Rule.tagged D))
      else
        BOOST_PP_IF (C (D + 2) X)
          (Except.bind (F (Rule.tagged D :: active) (D + 2) X)
            (whileRulesGuarded C F n (D + 1) (Rule.tagged D :: active)))
          (Except.ok X)

/-- The depth-tagged rule `BOOST_PP_WHILE##D(C,F,X)` invoked while the rules of `active`
are under expansion. -/
def BOOST_PP_WHILE_D_guarded (C : Nat → α → Nat)
    (F : List Rule → Nat → α → Except ExpansionError α) (D : Nat) (active : List Rule)
    (X : α) : Except ExpansionError α :=
  if D ≤ 258 then whileRulesGuarded C F (258 - D) D active X
  else if D = 259 then
    if Rule.tagged 259 ∈ active then Except.error (ExpansionError.reentered (Rule.tagged 259))
    else Except.error (ExpansionError.whileError (WhileError.recursionDepthExceeded 259))
  else Except.error (ExpansionError.whileError (WhileError.undefinedRule D))

/-- The entry rule `BOOST_PP_WHILE(C,F,X)` invoked while the rules of `active` are under
expansion. -/
def BOOST_PP_WHILE_guarded (C : Nat → α → Nat)
    (F : List Rule → Nat → α → Except ExpansionError α) (active : List Rule) (X : α) :
    Except ExpansionError α :=
  if Rule.entry ∈ active then Except.error (ExpansionError.reentered Rule.entry)
  else
    BOOST_PP_IF (C 1 X)
      (Except.bind (F (Rule.entry :: active) 1 X)
        (BOOST_PP_WHILE_D_guarded C F 0 (Rule.entry :: active)))
      (Except.ok X)

/-- A step of a loop: either a step that uses no rule of the family, or a step that runs
a loop of its own, on the same state, through the depth-tagged rule of the tag it is
given, as the `D` parameter is documented to be used. -/
inductive LoopNest (α : Type) where
  | prim (f : Nat → α → α)
  | nest (C : Nat → α → Nat) (body : LoopNest α)

/-- The expansion of a step of a loop nest at tag `D` while the rules of `active` are
under expansion. -/
def LoopNest.step : LoopNest α → List Rule → Nat → α → Except ExpansionError α
  | LoopNest.prim f, _, D, X => Except.ok (f D X)
  | LoopNest.nest C body, active, D, X => BOOST_PP_WHILE_D_guarded C body.step D active X

/-- The rules under expansion when the chain started at `BOOST_PP_WHILE` expands the step
at tag `D`: rules `D-2`, ..., 0 and the entry rule. -/
def activeAt : Nat → List Rule
  | 0 => []
  | 1 => [Rule.entry]
  | D + 2 => Rule.tagged D :: activeAt (D + 1)

/-- Every rule of the list is the entry rule or a depth-tagged rule below `D`. -/
def Below (D : Nat) (active : List Rule) : Prop :=
  ∀ r, r ∈ active → r = Rule.entry ∨ ∃ d, d < D ∧ r = Rule.tagged d

end Guarded

/-! ## `libs/mpl/test/aux_/preprocessor/token_equal.cpp` -/

section TokenEqual

variable {τ : Type} [DecidableEq τ]

/-- What the token comparison looks at: a text is either the parenthesised sequence
`(unused)` or a name `BOOST_MPL_PP_TOKEN_EQUAL_t` that was left unexpanded in front of
`((unused))`. -/
inductive ProbeText (τ : Type) where
  | seq
  | unexpanded (t : τ)
  deriving DecidableEq, Repr

/-- Modelled from the spec: the text left by `BOOST_MPL_PP_TOKEN_EQUAL_##t((unused))`, the
name obtained by token concatenation applied to the sequence `(unused)`.  A token is
registered by an identity rule `BOOST_MPL_PP_TOKEN_EQUAL_t(x) x`, as the test does for
`apple` and `orange`; the rule gives back `(unused)` unless there is no such rule or the
rule is itself under expansion (the text-substitution layer forbids a rule from
expanding itself while it is being expanded). -/
def tokenProbe (registered : τ → Bool) (underExpansion : List τ) (t : τ) : ProbeText τ :=
  if registered t = true ∧ t ∉ underExpansion then ProbeText.seq else ProbeText.unexpanded t

/-- Modelled from the spec: `BOOST_MPL_PP_IS_SEQ(text)` of the MPL preprocessor helpers,
which are not part of the excerpt: 1 for a parenthesised sequence and 0 otherwise. -/
def BOOST_MPL_PP_IS_SEQ : ProbeText τ → Nat
  | ProbeText.seq => 1
  | ProbeText.unexpanded _ => 0

/-- Modelled from the spec: `BOOST_PP_BITAND(x,y)` of `boost/preprocessor/logical/bitand.hpp`,
which is not part of the excerpt: the conjunction of two bits. -/
def BOOST_PP_BITAND (x y : Nat) : Nat := if x = 1 ∧ y = 1 then 1 else 0

/-- Modelled from the spec: `BOOST_PP_COMPL(x)` of `boost/preprocessor/logical/compl.hpp`,
which is not part of the excerpt: the complement of a bit. -/
def BOOST_PP_COMPL (x : Nat) : Nat := if x = 0 then 1 else 0

/-- Modelled from the spec: the second stage of the token comparison, used when both
tokens are registered: the complement of
`BOOST_MPL_PP_IS_SEQ(BOOST_MPL_PP_TOKEN_EQUAL_##a(BOOST_MPL_PP_TOKEN_EQUAL_##b)((unused)))`.
The identity rule of `a` gives back the name `BOOST_MPL_PP_TOKEN_EQUAL_b`, which meets
`((unused))` while the rule of `a` is under expansion. -/
def BOOST_MPL_PP_TOKEN_EQUAL_I (registered : τ → Bool) (a b : τ) : Nat :=
  BOOST_PP_COMPL (BOOST_MPL_PP_IS_SEQ
    (if registered a = true then tokenProbe registered [a] b else ProbeText.unexpanded a))

/-- Modelled from the spec: `BOOST_MPL_PP_TOKEN_EQUAL(a,b)` of
`boost/mpl/aux_/preprocessor/token_equal.hpp`, which is not part of the excerpt (only its
test is): the equality-of-two-symbols test via token concatenation.  When both
concatenated names expand on `((unused))` the second stage decides; otherwise the result
is 0. -/
def BOOST_MPL_PP_TOKEN_EQUAL (registered : τ → Bool) (a b : τ) : Nat :=
  BOOST_PP_IF
    (BOOST_PP_BITAND (BOOST_MPL_PP_IS_SEQ (tokenProbe registered [] a))
      (BOOST_MPL_PP_IS_SEQ (tokenProbe registered [] b)))
    (BOOST_MPL_PP_TOKEN_EQUAL_I registered a b)
    0

/-- Modelled from the spec: `BOOST_PP_ASSERT(c)` of `boost/preprocessor/debug/assert.hpp`,
which is not part of the excerpt: the assertion holds when the condition is non-zero. -/
def BOOST_PP_ASSERT (c : Nat) : Bool := decide (c ≠ 0)

/-- `AUX_ASSERT_EQUAL(x, y)` is `BOOST_PP_ASSERT( BOOST_MPL_PP_TOKEN_EQUAL(x, y) )`. -/
def AUX_ASSERT_EQUAL (registered : τ → Bool) (x y : τ) : Bool :=
  BOOST_PP_ASSERT (BOOST_MPL_PP_TOKEN_EQUAL registered x y)

/-- `AUX_ASSERT_NOT_EQUAL(x, y)` is
`BOOST_PP_ASSERT( BOOST_PP_NOT( BOOST_MPL_PP_TOKEN_EQUAL(x, y) ) )`. -/
def AUX_ASSERT_NOT_EQUAL (registered : τ → Bool) (x y : τ) : Bool :=
  BOOST_PP_ASSERT (BOOST_PP_NOT (BOOST_MPL_PP_TOKEN_EQUAL registered x y))

end TokenEqual

/-- The tokens that occur in `main` of the test. -/
inductive TestToken where
  | apple | orange | abc
  deriving DecidableEq, Repr

/-- The registrations of `main`: `BOOST_MPL_PP_TOKEN_EQUAL_apple(x) x` and
`BOOST_MPL_PP_TOKEN_EQUAL_orange(x) x`. -/
def testRegistered : TestToken → Bool
  | TestToken.apple => true
  | TestToken.orange => true
  | TestToken.abc => false

/-- The six assertions of `main`, in the order of the test; the test passes when all
hold. -/
def tokenEqualTestMain : List Bool :=
  [ AUX_ASSERT_NOT_EQUAL testRegistered TestToken.apple TestToken.abc,
    AUX_ASSERT_NOT_EQUAL testRegistered TestToken.abc TestToken.apple,
    AUX_ASSERT_NOT_EQUAL testRegistered TestToken.apple TestToken.orange,
    AUX_ASSERT_NOT_EQUAL testRegistered TestToken.orange TestToken.apple,
    AUX_ASSERT_EQUAL testRegistered TestToken.apple TestToken.apple,
    AUX_ASSERT_EQUAL testRegistered TestToken.orange TestToken.orange ]

/-! ## `ptr_container/ptr_set.hpp` -/

section PtrSet

variable {K : Type}

/-- Modelled from the spec: the free store on which pointer containers live.  Element
objects and container objects are addressed by their position; a destroyed object is
`none`.  A container object (`ptr_set` or `ptr_multiset`) holds the addresses of its
elements in iteration order. -/
structure PtrHeap (K : Type) where
  objects : List (Option K)
  containers : List (Option (List Nat))

/-- The element object at an address, if it is alive. -/
def PtrHeap.deref (h : PtrHeap K) (p : Nat) : Option K := h.objects.getD p none

/-- The container object at an address, if it is alive. -/
def PtrHeap.container (h : PtrHeap K) (c : Nat) : Option (List Nat) :=
  h.containers.getD c none

/-- Modelled from the spec: the owning pointer that `clone()` returns; `none` once the
ownership has been given away. -/
structure OwningPtr where
  ptr : Option Nat
  deriving DecidableEq, Repr

/-- Modelled from the spec: `r.clone()`, defined by
`BOOST_PTR_CONTAINER_DEFINE_RELEASE_AND_CLONE`, which is not part of the excerpt:
deep-copy-on-clone.  Every element of `r` is copied to a new object, the copies are put,
in the same order, in a new container object, and an owning pointer to it is returned. -/
def PtrHeap.clone (h : PtrHeap K) (r : Nat) : PtrHeap K × OwningPtr :=
  match h.container r with
  | some ptrs =>
      ({ objects := h.objects ++ ptrs.map h.deref,
         containers := h.containers ++ [some (List.range' h.objects.length ptrs.length)] },
        { ptr := some h.containers.length })
  | none => (h, { ptr := none })

/-- Modelled from the spec: `release()` on the owning pointer:
ownership-transferred-on-release.  The raw address is returned and the owning pointer
keeps nothing. -/
def OwningPtr.release (p : OwningPtr) : Option Nat × OwningPtr :=
  (p.ptr, { ptr := none })

/-- Modelled from the spec: the end of life of an owning pointer: what it still owns is
destroyed, the container object and the elements it holds. -/
def PtrHeap.destroyOwned (h : PtrHeap K) (p : OwningPtr) : PtrHeap K :=
  match p.ptr with
  | none => h
  | some c =>
      match h.container c with
      | none => h
      | some ptrs =>
          { objects := (List.range h.objects.length).map
              (fun i => if i ∈ ptrs then none else h.deref i),
            containers := h.containers.set c none }

/-- `new_clone( const ptr_set<K,C,CA,A>& r )` is `return r.clone().release();`: the
temporary owning pointer returned by `clone()` is released, the raw address is the
result, and the temporary ends its life at the end of the statement. -/
def new_clone_ptr_set (h : PtrHeap K) (r : Nat) : PtrHeap K × Option Nat :=
  let cloned := h.clone r
  let released := cloned.2.release
  (cloned.1.destroyOwned released.2, released.1)

/-- `new_clone( const ptr_multiset<K,C,CA,A>& r )` is `return r.clone().release();`. -/
def new_clone_ptr_multiset (h : PtrHeap K) (r : Nat) : PtrHeap K × Option Nat :=
  let cloned := h.clone r
  let released := cloned.2.release
  (cloned.1.destroyOwned released.2, released.1)

end PtrSet

/-! ## `boost/mpl/vector/aux_/pop_back.hpp` -/

section MplVector

variable {T : Type}

/-- Modelled from the spec: the typeof-based vector types, which are declared outside the
excerpt: the empty vector `vector0`, and `v_item<T,Base>`, the vector `Base` with the
item `T` appended, which records the vector it extends in its nested typedef `base`. -/
inductive MplVector (T : Type) where
  | vector0 : MplVector T
  | v_item (item : T) (base : MplVector T) : MplVector T
  deriving DecidableEq, Repr

/-- The nested typedef `Vector::base`; the empty vector has none, so naming it does not
compile. -/
def MplVector.base : MplVector T → Option (MplVector T)
  | MplVector.vector0 => none
  | MplVector.v_item _ b => some b

/-- Modelled from the spec: appending one element to a typeof-based vector (`push_back`,
outside the excerpt) gives `v_item<T,Vector>`. -/
def MplVector.push_back (B : MplVector T) (t : T) : MplVector T := MplVector.v_item t B

/-- The elements of a vector, first to last. -/
def MplVector.elements : MplVector T → List T
  | MplVector.vector0 => []
  | MplVector.v_item t b => b.elements ++ [t]

/-- `pop_back_traits< aux::vector_tag >::algorithm<Vector>::type` is
`typedef typename Vector::base type;`. -/
def pop_back_traits_vector_tag_algorithm (Vector : MplVector T) : Option (MplVector T) :=
  Vector.base

end MplVector

/-! ## The free `swap` functions of `ptr_container/ptr_set.hpp` -/

section PtrSwap

variable {K : Type}

/-- Modelled from the spec: the member `l.swap(r)`, which the containers inherit from the
adapters outside the excerpt: the two container objects exchange the element addresses
they hold; no element object is touched. -/
def PtrHeap.swapContainers (h : PtrHeap K) (l r : Nat) : PtrHeap K :=
  { objects := h.objects,
    containers := (h.containers.set l (h.containers.getD r none)).set r
      (h.containers.getD l none) }

/-- `swap( ptr_set<K,C,CA,A>& l, ptr_set<K,C,CA,A>& r )` is `l.swap(r);`. -/
def swap_ptr_set (h : PtrHeap K) (l r : Nat) : PtrHeap K := h.swapContainers l r

/-- `swap( ptr_multiset<K,C,CA,A>& l, ptr_multiset<K,C,CA,A>& r )` is `l.swap(r);`. -/
def swap_ptr_multiset (h : PtrHeap K) (l r : Nat) : PtrHeap K := h.swapContainers l r

end PtrSwap

/-! ## The Metrowerks variant of the helpers of `list/rest_n.hpp` -/

section RestNMetrowerks

variable {τ : Type}

/-- Modelled from the spec: `BOOST_PP_TUPLE_ELEM(2,0,T)` of
`boost/preprocessor/tuple/elem.hpp` (not part of the excerpt): the size and the index are
pasted into the name `BOOST_PP_TUPLE2_ELEM0`, which is put in front of `T`. -/
def BOOST_PP_TUPLE_ELEM_2_0 {α β : Type} (X : α × β) : α := BOOST_PP_TUPLE2_ELEM0 X

/-- Modelled from the spec: `BOOST_PP_TUPLE_ELEM(2,1,T)` of
`boost/preprocessor/tuple/elem.hpp` (not part of the excerpt): the size and the index are
pasted into the name `BOOST_PP_TUPLE2_ELEM1`, which is put in front of `T`. -/
def BOOST_PP_TUPLE_ELEM_2_1 {α β : Type} (X : α × β) : β := BOOST_PP_TUPLE2_ELEM1 X

/-- Modelled from the spec: `BOOST_PP_TUPLE_ELEM(3,1,T)` applied to the text of a list
slot: the size and the index are pasted into the name `BOOST_PP_TUPLE3_ELEM1`, which is
put in front of `T`. -/
def BOOST_PP_TUPLE_ELEM_3_1_LIST (L : Option (List τ)) : Option (List τ) :=
  BOOST_PP_TUPLE3_ELEM1 L

/-- The Metrowerks variant of `BOOST_PP_LIST_REST_N_C(D,X)`: `BOOST_PP_TUPLE_ELEM(2,1,X)`. -/
def BOOST_PP_LIST_REST_N_C_MWERKS (_D : Nat) (X : Option (List τ) × Nat) : Nat :=
  BOOST_PP_TUPLE_ELEM_2_1 X

/-- The Metrowerks variant of `BOOST_PP_LIST_REST_N_F(D,X)`:
`(BOOST_PP_TUPLE_ELEM(3,1,BOOST_PP_TUPLE_ELEM(2,0,X)),BOOST_PP_DEC(BOOST_PP_TUPLE_ELEM(2,1,X)))`. -/
def BOOST_PP_LIST_REST_N_F_MWERKS (_D : Nat) (X : Option (List τ) × Nat) :
    Option (List τ) × Nat :=
  (BOOST_PP_TUPLE_ELEM_3_1_LIST (BOOST_PP_TUPLE_ELEM_2_0 X),
    BOOST_PP_DEC (BOOST_PP_TUPLE_ELEM_2_1 X))

end RestNMetrowerks

/-! ## The obsolete names -/

/-- `BOOST_PREPROCESSOR_NOR(X,Y)` is `BOOST_PP_NOR(X,Y)`. -/
def BOOST_PREPROCESSOR_NOR (X Y : Nat) : Option Nat := BOOST_PP_NOR X Y

/-- `BOOST_PREPROCESSOR_LESS_EQUAL(X,Y)` is `BOOST_PP_LESS_EQUAL(X,Y)`. -/
def BOOST_PREPROCESSOR_LESS_EQUAL (X Y : Nat) : Except WhileError Nat :=
  BOOST_PP_LESS_EQUAL X Y

/-! ### Steps that run a loop of their own -/

section NestedSteps

variable {α β : Type}

/-- A failure of the rule family, as an outcome of an expansion that keeps track of the
rules under expansion. -/
def liftError : Except WhileError α → Except ExpansionError α
  | Except.ok X => Except.ok X
  | Except.error e => Except.error (ExpansionError.whileError e)

/-- A step that uses no rule of the family, given the list of rules under expansion. -/
def pureStep (F : Nat → α → α) : List Rule → Nat → α → Except ExpansionError α :=
  fun _ D X => Except.ok (F D X)

/-- The step of an outer loop that runs an inner loop through the depth-tagged rule of
its own tag: `F(D,X)` is `post(X, BOOST_PP_WHILE##D(Ci,Fi,pre(X)))`, expanded while the
rules of `active` are under expansion.  What the inner loop expands to is text, a state
or the text of a failure; `post` builds the next state of the outer loop from it and is
free to discard it, so a failed inner loop does not by itself fail the step. -/
def nestedStep (Ci : Nat → β → Nat) (Fi : Nat → β → β) (pre : α → β)
    (post : α → Except ExpansionError β → α) :
    List Rule → Nat → α → Except ExpansionError α :=
  fun active D X =>
    Except.ok (post X (BOOST_PP_WHILE_D_guarded Ci (pureStep Fi) D active (pre X)))

/-- The step of an outer loop that uses the result of the unnested inner loop: `F(D,X)`
is `post(X, R)` where `R` is what the top-level `BOOST_PP_WHILE(Ci,Fi,pre(X))` expands to
on its own, with no rule under expansion. -/
def unnestedStep (Ci : Nat → β → Nat) (Fi : Nat → β → β) (pre : α → β)
    (post : α → Except ExpansionError β → α) :
    List Rule → Nat → α → Except ExpansionError α :=
  fun _ _ X => Except.ok (post X (liftError (BOOST_PP_WHILE Ci Fi (pre X))))

end NestedSteps

/-- How the example outer countdown uses its inner loop: the counter is decremented and
the result of the inner loop is added; the text of a failed inner loop leaves the
counter as it is. -/
def countPost (X : Nat) (inner : Except ExpansionError Nat) : Nat :=
  match inner with
  | Except.ok y => X - 1 + y
  | Except.error _ => X

/-- An outer step that runs an inner loop and discards what it expands to: the counter
is decremented whatever the inner loop gave. -/
def dropPost (X : Nat) (_inner : Except ExpansionError Nat) : Nat := X - 1

/-- The condition of an outer countdown on a counter with a flag: the counter. -/
def flagC (_D : Nat) (X : Nat × Nat) : Nat := X.1

/-- How the flagged outer countdown uses its inner loop: the counter is decremented and
the result of the inner loop is added; the text of a failed inner loop stops the
countdown and raises the flag. -/
def flagPost (X : Nat × Nat) (inner : Except ExpansionError Nat) : Nat × Nat :=
  match inner with
  | Except.ok y => (X.1 - 1 + y, X.2)
  | Except.error _ => (0, 1)

/-! # Lemmas -/

/-! ## Basic facts about unrolling -/

section EngineLemmas

variable {α : Type}

theorem BOOST_PP_WHILE_C_true {β : Type} {c : Nat} (hc : c ≠ 0)
    (next : β → Except WhileError α) (X : α) (Y : β) :
    BOOST_PP_WHILE_C c next X Y = next Y := by
  simp [BOOST_PP_WHILE_C, BOOST_PP_IF, hc]

theorem BOOST_PP_WHILE_C_false {β : Type} {c : Nat} (hc : c = 0)
    (next : β → Except WhileError α) (X : α) (Y : β) :
    BOOST_PP_WHILE_C c next X Y = Except.ok X := by
  simp [BOOST_PP_WHILE_C, BOOST_PP_IF, BOOST_PP_TUPLE3_EAT, hc]

theorem unroll_succ_shift (F : Nat → α → α) (t : Nat) (X : α) (i : Nat) :
    unroll F t X (i + 1) = unroll F (t + 1) (F t X) i := by
  induction i with
  | zero => simp [unroll]
  | succ i ih =>
      have e : t + 1 + i = t + (i + 1) := by omega
      calc unroll F t X (i + 1 + 1)
          = F (t + (i + 1)) (unroll F t X (i + 1)) := rfl
        _ = F (t + 1 + i) (unroll F (t + 1) (F t X) i) := by rw [ih, e]
        _ = unroll F (t + 1) (F t X) (i + 1) := rfl

theorem endsAfter_zero_iff (C : Nat → α → Nat) (F : Nat → α → α) (t : Nat) (X : α) :
    EndsAfter C F t X 0 ↔ C t X = 0 := by
  simp [EndsAfter, unroll]

theorem endsAfter_succ_iff (C : Nat → α → Nat) (F : Nat → α → α) (t : Nat) (X : α)
    (k : Nat) :
    EndsAfter C F t X (k + 1) ↔ C t X ≠ 0 ∧ EndsAfter C F (t + 1) (F t X) k := by
  constructor
  · rintro ⟨h1, h2⟩
    refine ⟨by simpa [unroll] using h1 0 (Nat.succ_pos k), ?_, ?_⟩
    · intro j hj
      have := h1 (j + 1) (by omega)
      rw [unroll_succ_shift] at this
      have e : t + 1 + j = t + (j + 1) := by omega
      rwa [e]
    · rw [unroll_succ_shift] at h2
      have e : t + 1 + k = t + (k + 1) := by omega
      rwa [e]
  · rintro ⟨h0, h1, h2⟩
    refine ⟨?_, ?_⟩
    · intro j hj
      cases j with
      | zero => simpa [unroll] using h0
      | succ j =>
          rw [unroll_succ_shift]
          have e : t + (j + 1) = t + 1 + j := by omega
          rw [e]
          exact h1 j (by omega)
    · rw [unroll_succ_shift]
      have e : t + (k + 1) = t + 1 + k := by omega
      rwa [e]

theorem allTrue_succ_iff (C : Nat → α → Nat) (F : Nat → α → α) (t : Nat) (X : α)
    (n : Nat) :
    AllTrue C F t X (n + 1) ↔ C t X ≠ 0 ∧ AllTrue C F (t + 1) (F t X) n := by
  constructor
  · intro h
    refine ⟨by simpa [unroll] using h 0 (Nat.succ_pos n), ?_⟩
    intro j hj
    have := h (j + 1) (by omega)
    rw [unroll_succ_shift] at this
    have e : t + 1 + j = t + (j + 1) := by omega
    rwa [e]
  · rintro ⟨h0, h1⟩ j hj
    cases j with
    | zero => simpa [unroll] using h0
    | succ j =>
        rw [unroll_succ_shift]
        have e : t + (j + 1) = t + 1 + j := by omega
        rw [e]
        exact h1 j (by omega)

/-- Either the condition stays true for `n` points, or it first fails after some `m < n`
steps. -/
theorem allTrue_or_endsAfter (C : Nat → α → Nat) (F : Nat → α → α) (n : Nat) :
    ∀ (t : Nat) (X : α), AllTrue C F t X n ∨ ∃ m, m < n ∧ EndsAfter C F t X m := by
  induction n with
  | zero => intro t X; left; intro j hj; omega
  | succ n ih =>
      intro t X
      by_cases h0 : C t X = 0
      · right; exact ⟨0, Nat.succ_pos n, (endsAfter_zero_iff C F t X).2 h0⟩
      · rcases ih (t + 1) (F t X) with h | ⟨m, hm, he⟩
        · left; exact (allTrue_succ_iff C F t X n).2 ⟨h0, h⟩
        · right; exact ⟨m + 1, by omega, (endsAfter_succ_iff C F t X m).2 ⟨h0, he⟩⟩

/-- A loop cannot both stay true for `n` points and end after fewer than `n` steps. -/
theorem allTrue_not_endsAfter {C : Nat → α → Nat} {F : Nat → α → α} {t : Nat} {X : α}
    {n m : Nat} (h : AllTrue C F t X n) (he : EndsAfter C F t X m) : n ≤ m := by
  by_contra hlt
  exact h m (by omega) he.2

/-- The number of steps after which a loop ends is unique. -/
theorem endsAfter_unique {C : Nat → α → Nat} {F : Nat → α → α} {t : Nat} {X : α}
    {k m : Nat} (hk : EndsAfter C F t X k) (hm : EndsAfter C F t X m) : k = m := by
  have h1 : k ≤ m := allTrue_not_endsAfter hk.1 hm
  have h2 : m ≤ k := allTrue_not_endsAfter hm.1 hk
  omega

/-- Rule `D`, with `n` dispatching rules left, returns the unrolled state when the loop
ends after `m < n` steps. -/
theorem whileRules_ok (C : Nat → α → Nat) (F : Nat → α → α) (n : Nat) :
    ∀ (D : Nat) (X : α) (m : Nat), m < n → EndsAfter C F (D + 2) X m →
      whileRules C F n D X = Except.ok (unroll F (D + 2) X m) := by
  induction n with
  | zero => intro D X m hm; omega
  | succ n ih =>
      intro D X m hm he
      cases m with
      | zero =>
          have h0 := (endsAfter_zero_iff C F (D + 2) X).1 he
          simp only [whileRules, unroll]
          exact BOOST_PP_WHILE_C_false h0 _ _ _
      | succ m =>
          obtain ⟨h0, h1⟩ := (endsAfter_succ_iff C F (D + 2) X m).1 he
          simp only [whileRules]
          rw [BOOST_PP_WHILE_C_true h0, unroll_succ_shift]
          exact ih (D + 1) (F (D + 2) X) m (by omega) h1

/-- Rule `D`, with `n` dispatching rules left, runs into the poisoned rule `D + n` when
the condition stays true for `n` points. -/
theorem whileRules_error (C : Nat → α → Nat) (F : Nat → α → α) (n : Nat) :
    ∀ (D : Nat) (X : α), AllTrue C F (D + 2) X n →
      whileRules C F n D X = Except.error (WhileError.recursionDepthExceeded (D + n)) := by
  induction n with
  | zero => intro D X _; simp [whileRules]
  | succ n ih =>
      intro D X h
      obtain ⟨h0, h1⟩ := (allTrue_succ_iff C F (D + 2) X n).1 h
      simp only [whileRules]
      rw [BOOST_PP_WHILE_C_true h0, ih (D + 1) (F (D + 2) X) h1]
      congr 2; omega

/-- The depth-tagged rule `D` returns the unrolled state when the loop takes `m` steps
and `D + m ≤ 257`. -/
theorem BOOST_PP_WHILE_D_ok (C : Nat → α → Nat) (F : Nat → α → α) (D : Nat) (X : α)
    (m : Nat) (hm : D + m ≤ 257) (he : EndsAfter C F (D + 2) X m) :
    BOOST_PP_WHILE_D C F D X = Except.ok (unroll F (D + 2) X m) := by
  unfold BOOST_PP_WHILE_D
  rw [if_pos (by omega)]
  exact whileRules_ok C F (258 - D) D X m (by omega) he

/-- The entry rule returns the unrolled state when the loop takes `k ≤ 258` steps. -/
theorem BOOST_PP_WHILE_ok (C : Nat → α → Nat) (F : Nat → α → α) (X : α) (k : Nat)
    (hk : k ≤ 258) (he : EndsAfter C F 1 X k) :
    BOOST_PP_WHILE C F X = Except.ok (unroll F 1 X k) := by
  unfold BOOST_PP_WHILE
  cases k with
  | zero =>
      exact BOOST_PP_WHILE_C_false ((endsAfter_zero_iff C F 1 X).1 he) _ _ _
  | succ k =>
      obtain ⟨h0, h1⟩ := (endsAfter_succ_iff C F 1 X k).1 he
      rw [BOOST_PP_WHILE_C_true h0, unroll_succ_shift]
      exact BOOST_PP_WHILE_D_ok C F 0 (F 1 X) k (by omega) h1

/-- The entry rule runs into the poisoned rule 258 when the condition is true at the 259
points `C(1,X_0)`, ..., `C(259,X_258)`. -/
theorem BOOST_PP_WHILE_error (C : Nat → α → Nat) (F : Nat → α → α) (X : α)
    (h : AllTrue C F 1 X 259) :
    BOOST_PP_WHILE C F X = Except.error (WhileError.recursionDepthExceeded 258) := by
  unfold BOOST_PP_WHILE
  obtain ⟨h0, h1⟩ := (allTrue_succ_iff C F 1 X 258).1 h
  rw [BOOST_PP_WHILE_C_true h0]
  unfold BOOST_PP_WHILE_D
  rw [if_pos (by omega)]
  exact whileRules_error C F 258 0 (F 1 X) h1

end EngineLemmas


/-! ## The example loops -/

theorem unroll_countF (t n i : Nat) : unroll countF t n i = n - i := by
  induction i with
  | zero => simp [unroll]
  | succ i ih => simp only [unroll, countF, ih]; omega

theorem endsAfter_count (t n : Nat) : EndsAfter countC countF t n n := by
  refine ⟨?_, ?_⟩
  · intro j hj; simp only [countC, unroll_countF]; omega
  · simp only [countC, unroll_countF]; omega

theorem allTrue_iff_tags {α : Type} (C : Nat → α → Nat) (F : Nat → α → α) (X : α) (n : Nat) :
    AllTrue C F 1 X n ↔ ∀ j, 1 ≤ j → j ≤ n → C j (unroll F 1 X (j - 1)) ≠ 0 := by
  constructor
  · intro h j h1 hn
    have := h (j - 1) (by omega)
    have e : 1 + (j - 1) = j := by omega
    rwa [e] at this
  · intro h j hj
    have := h (1 + j) (by omega) (by omega)
    have e : 1 + j - 1 = j := by omega
    rwa [e] at this

theorem allTrue_of_always {α : Type} (C : Nat → α → Nat) (F : Nat → α → α) (t : Nat) (X : α) (n : Nat)
    (h : ∀ d x, C d x ≠ 0) : AllTrue C F t X n :=
  fun j _ => h (t + j) (unroll F t X j)

/-! ## The record of tags -/

section TraceLemmas

variable {α : Type}

theorem whileRulesTraced_snd (C : Nat → α → Nat) (F : Nat → α → α) (n : Nat) :
    ∀ (D : Nat) (X : α), (whileRulesTraced C F n D X).2 = whileRules C F n D X := by
  induction n with
  | zero => intro D X; rfl
  | succ n ih =>
      intro D X
      by_cases h0 : C (D + 2) X = 0
      · simp only [whileRulesTraced, whileRules, h0, ne_eq, not_true_eq_false, if_false]
        exact (BOOST_PP_WHILE_C_false rfl _ _ _).symm
      · simp only [whileRulesTraced, whileRules, h0, ne_eq, not_false_eq_true, if_true]
        rw [BOOST_PP_WHILE_C_true h0]
        exact ih (D + 1) (F (D + 2) X)

theorem BOOST_PP_WHILE_D_traced_snd (C : Nat → α → Nat) (F : Nat → α → α) (D : Nat)
    (X : α) : (BOOST_PP_WHILE_D_traced C F D X).2 = BOOST_PP_WHILE_D C F D X := by
  unfold BOOST_PP_WHILE_D_traced BOOST_PP_WHILE_D
  by_cases h : D ≤ 258
  · rw [if_pos h, if_pos h]; exact whileRulesTraced_snd C F _ D X
  · rw [if_neg h, if_neg h]
    by_cases h9 : D = 259
    · rw [if_pos h9, if_pos h9]
    · rw [if_neg h9, if_neg h9]

theorem BOOST_PP_WHILE_traced_snd (C : Nat → α → Nat) (F : Nat → α → α) (X : α) :
    (BOOST_PP_WHILE_traced C F X).2 = BOOST_PP_WHILE C F X := by
  unfold BOOST_PP_WHILE_traced BOOST_PP_WHILE
  by_cases h0 : C 1 X = 0
  · simp only [h0, ne_eq, not_true_eq_false, if_false]
    exact (BOOST_PP_WHILE_C_false rfl _ _ _).symm
  · simp only [h0, ne_eq, not_false_eq_true, if_true]
    rw [BOOST_PP_WHILE_C_true h0]
    exact BOOST_PP_WHILE_D_traced_snd C F 0 (F 1 X)

theorem whileRulesTraced_ok_events (C : Nat → α → Nat) (F : Nat → α → α) (n : Nat) :
    ∀ (D : Nat) (X : α) (m : Nat), m < n → EndsAfter C F (D + 2) X m →
      (whileRulesTraced C F n D X).1 = tagPairs (D + 2) m ++ [Event.cond (D + 2 + m)] := by
  induction n with
  | zero => intro D X m hm; omega
  | succ n ih =>
      intro D X m hm he
      cases m with
      | zero =>
          have h0 := (endsAfter_zero_iff C F (D + 2) X).1 he
          simp [whileRulesTraced, h0, tagPairs]
      | succ m =>
          obtain ⟨h0, h1⟩ := (endsAfter_succ_iff C F (D + 2) X m).1 he
          have := ih (D + 1) (F (D + 2) X) m (by omega) h1
          simp only [whileRulesTraced, h0, ne_eq, not_false_eq_true, if_true, tagPairs,
            List.cons_append, this]
          have e : D + 1 + 2 + m = D + 2 + (m + 1) := by omega
          rw [e]

theorem whileRulesTraced_error_events (C : Nat → α → Nat) (F : Nat → α → α) (n : Nat) :
    ∀ (D : Nat) (X : α), AllTrue C F (D + 2) X n →
      (whileRulesTraced C F n D X).1 = tagPairs (D + 2) n := by
  induction n with
  | zero => intro D X _; rfl
  | succ n ih =>
      intro D X h
      obtain ⟨h0, h1⟩ := (allTrue_succ_iff C F (D + 2) X n).1 h
      have := ih (D + 1) (F (D + 2) X) h1
      simp only [whileRulesTraced, h0, ne_eq, not_false_eq_true, if_true, tagPairs, this]

theorem BOOST_PP_WHILE_traced_ok_events (C : Nat → α → Nat) (F : Nat → α → α) (X : α)
    (k : Nat) (hk : k ≤ 258) (he : EndsAfter C F 1 X k) :
    (BOOST_PP_WHILE_traced C F X).1 = tagPairs 1 k ++ [Event.cond (1 + k)] := by
  unfold BOOST_PP_WHILE_traced
  cases k with
  | zero =>
      have h0 := (endsAfter_zero_iff C F 1 X).1 he
      simp [h0, tagPairs]
  | succ k =>
      obtain ⟨h0, h1⟩ := (endsAfter_succ_iff C F 1 X k).1 he
      have := whileRulesTraced_ok_events C F 258 0 (F 1 X) k (by omega) h1
      simp only [h0, ne_eq, not_false_eq_true, if_true, BOOST_PP_WHILE_D_traced, tagPairs,
        List.cons_append]
      rw [if_pos (by omega)]
      simp only [Nat.sub_zero, this]
      have e : 0 + 2 + k = 1 + (k + 1) := by omega
      rw [e]

theorem BOOST_PP_WHILE_traced_error_events (C : Nat → α → Nat) (F : Nat → α → α) (X : α)
    (h : AllTrue C F 1 X 259) :
    (BOOST_PP_WHILE_traced C F X).1 = tagPairs 1 259 := by
  unfold BOOST_PP_WHILE_traced
  obtain ⟨h0, h1⟩ := (allTrue_succ_iff C F 1 X 258).1 h
  have := whileRulesTraced_error_events C F 258 0 (F 1 X) h1
  simp only [h0, ne_eq, not_false_eq_true, if_true, BOOST_PP_WHILE_D_traced]
  rw [if_pos (by omega)]
  simp only [Nat.sub_zero, this]
  rfl

end TraceLemmas

theorem condTags_tagPairs (m : Nat) : ∀ t, condTags (tagPairs t m) = List.range' t m := by
  induction m with
  | zero => intro t; rfl
  | succ m ih => intro t; simp [tagPairs, condTags, ih, List.range']

theorem stepTags_tagPairs (m : Nat) : ∀ t, stepTags (tagPairs t m) = List.range' t m := by
  induction m with
  | zero => intro t; rfl
  | succ m ih => intro t; simp [tagPairs, stepTags, ih, List.range']

theorem condTags_append (xs ys : List Event) :
    condTags (xs ++ ys) = condTags xs ++ condTags ys := by
  induction xs with
  | nil => rfl
  | cons e es ih => cases e <;> simp [condTags, ih]

theorem stepTags_append (xs ys : List Event) :
    stepTags (xs ++ ys) = stepTags xs ++ stepTags ys := by
  induction xs with
  | nil => rfl
  | cons e es ih => cases e <;> simp [stepTags, ih]

theorem tag_mem_tagPairs (m : Nat) :
    ∀ (t : Nat) (e : Event), e ∈ tagPairs t m → t ≤ e.tag ∧ e.tag < t + m := by
  induction m with
  | zero => intro t e he; simp [tagPairs] at he
  | succ m ih =>
      intro t e he
      simp only [tagPairs, List.mem_cons] at he
      rcases he with rfl | rfl | he
      · simp [Event.tag]
      · simp [Event.tag]
      · have := ih (t + 1) e he
        omega

/-! ## Steps that invoke depth-tagged rules -/

section NestedLemmas

variable {α β : Type}

/-- Rule `D` of the nested rules follows a given sequence of states `tr` as long as the
condition is true and the step succeeds with the next state of the sequence. -/
theorem whileRulesNested_follows (C : Nat → α → Nat) (F : Nat → α → Except WhileError α)
    (n : Nat) :
    ∀ (D : Nat) (tr : Nat → α) (m : Nat), m < n →
      (∀ j, j < m → C (D + 2 + j) (tr j) ≠ 0 ∧ F (D + 2 + j) (tr j) = Except.ok (tr (j + 1))) →
      C (D + 2 + m) (tr m) = 0 →
      whileRulesNested C F n D (tr 0) = Except.ok (tr m) := by
  induction n with
  | zero => intro D tr m hm; omega
  | succ n ih =>
      intro D tr m hm hstep hend
      cases m with
      | zero =>
          simp only [whileRulesNested]
          exact BOOST_PP_WHILE_C_false hend _ _ _
      | succ m =>
          obtain ⟨h0, hF⟩ := hstep 0 (Nat.succ_pos m)
          simp only [whileRulesNested]
          rw [BOOST_PP_WHILE_C_true h0, hF]
          have := ih (D + 1) (fun j => tr (j + 1)) m (by omega)
            (fun j hj => by
              have := hstep (j + 1) (by omega)
              have e : D + 1 + 2 + j = D + 2 + (j + 1) := by omega
              rw [e]; exact this)
            (by
              have e : D + 1 + 2 + m = D + 2 + (m + 1) := by omega
              rw [e]; exact hend)
          exact this

/-- The entry rule of the nested rules follows a given sequence of at most 258 steps. -/
theorem BOOST_PP_WHILE_nested_follows (C : Nat → α → Nat)
    (F : Nat → α → Except WhileError α) (tr : Nat → α) (k : Nat) (hk : k ≤ 258)
    (hstep : ∀ j, j < k → C (j + 1) (tr j) ≠ 0 ∧ F (j + 1) (tr j) = Except.ok (tr (j + 1)))
    (hend : C (k + 1) (tr k) = 0) :
    BOOST_PP_WHILE_nested C F (tr 0) = Except.ok (tr k) := by
  unfold BOOST_PP_WHILE_nested
  cases k with
  | zero => exact BOOST_PP_WHILE_C_false hend _ _ _
  | succ k =>
      obtain ⟨h0, hF⟩ := hstep 0 (Nat.succ_pos k)
      rw [BOOST_PP_WHILE_C_true h0, hF]
      show BOOST_PP_WHILE_D_nested C F 0 (tr 1) = _
      unfold BOOST_PP_WHILE_D_nested
      rw [if_pos (by omega)]
      exact whileRulesNested_follows C F 258 0 (fun j => tr (j + 1)) k (by omega)
        (fun j hj => by
          have := hstep (j + 1) (by omega)
          have e : 0 + 2 + j = j + 1 + 1 := by omega
          rw [e]; exact this)
        (by
          have e : 0 + 2 + k = k + 1 + 1 := by omega
          rw [e]; exact hend)

theorem unroll_tag_irrelevant (F : Nat → β → β) (hF : ∀ d d2 y, F d y = F d2 y)
    (t t2 : Nat) (Y : β) (i : Nat) : unroll F t Y i = unroll F t2 Y i := by
  induction i with
  | zero => rfl
  | succ i ih => simp only [unroll, ih]; exact hF _ _ _

theorem endsAfter_tag_irrelevant (C : Nat → β → Nat) (F : Nat → β → β)
    (hC : ∀ d d2 y, C d y = C d2 y) (hF : ∀ d d2 y, F d y = F d2 y)
    (t t2 : Nat) (Y : β) (m : Nat) (h : EndsAfter C F t Y m) : EndsAfter C F t2 Y m := by
  refine ⟨?_, ?_⟩
  · intro j hj
    rw [hC (t2 + j) (t + j), unroll_tag_irrelevant F hF t2 t]
    exact h.1 j hj
  · rw [hC (t2 + m) (t + m), unroll_tag_irrelevant F hF t2 t]
    exact h.2

/-- A depth-independent loop of `m` steps gives the same state through rule `D` as
through the entry rule, as long as `D + m ≤ 257`. -/
theorem BOOST_PP_WHILE_D_eq_entry (C : Nat → β → Nat) (F : Nat → β → β)
    (hC : ∀ d d2 y, C d y = C d2 y) (hF : ∀ d d2 y, F d y = F d2 y)
    (D : Nat) (Y : β) (m : Nat) (he : EndsAfter C F 1 Y m) (hm : D + m ≤ 257) :
    BOOST_PP_WHILE_D C F D Y = Except.ok (unroll F 1 Y m) ∧
      BOOST_PP_WHILE C F Y = Except.ok (unroll F 1 Y m) := by
  refine ⟨?_, BOOST_PP_WHILE_ok C F Y m (by omega) he⟩
  rw [BOOST_PP_WHILE_D_ok C F D Y m hm (endsAfter_tag_irrelevant C F hC hF 1 (D + 2) Y m he)]
  rw [unroll_tag_irrelevant F hF (D + 2) 1]

end NestedLemmas

/-! ## The loops of `rest_n.hpp` and of the subtraction -/

theorem unroll_restN {τ : Type} (L : List τ) (N t : Nat) :
    ∀ i, i ≤ L.length →
      unroll BOOST_PP_LIST_REST_N_F t (some L, N) i = (some (L.drop i), N - i) := by
  intro i
  induction i with
  | zero => intro _; simp [unroll]
  | succ i ih =>
      intro hi
      have hlt : i < L.length := by omega
      simp only [unroll, ih (by omega), BOOST_PP_LIST_REST_N_F, BOOST_PP_TUPLE2_ELEM0,
        BOOST_PP_TUPLE2_ELEM1, BOOST_PP_DEC]
      rw [List.drop_eq_getElem_cons hlt]
      simp only [BOOST_PP_TUPLE3_ELEM1]
      congr 1

theorem endsAfter_restN {τ : Type} (L : List τ) (N t : Nat) (hN : N ≤ L.length) :
    EndsAfter BOOST_PP_LIST_REST_N_C BOOST_PP_LIST_REST_N_F t (some L, N) N := by
  refine ⟨?_, ?_⟩
  · intro j hj
    rw [unroll_restN L N t j (by omega)]
    simp only [BOOST_PP_LIST_REST_N_C, BOOST_PP_TUPLE2_ELEM1]
    omega
  · rw [unroll_restN L N t N hN]
    simp [BOOST_PP_LIST_REST_N_C, BOOST_PP_TUPLE2_ELEM1]

/-- Through rule `D`, dropping `N ≤ length(L)` elements succeeds when `D + N ≤ 257`. -/
theorem BOOST_PP_LIST_REST_N_D_ok {τ : Type} (D N : Nat) (L : List τ) (hN : N ≤ L.length)
    (hD : D + N ≤ 257) : BOOST_PP_LIST_REST_N_D D N L = Except.ok (some (L.drop N)) := by
  unfold BOOST_PP_LIST_REST_N_D
  rw [BOOST_PP_WHILE_D_ok _ _ D (some L, N) N hD (endsAfter_restN L N (D + 2) hN),
    unroll_restN L N (D + 2) N hN]
  rfl

theorem unroll_subF (X Y t : Nat) :
    ∀ i, unroll BOOST_PP_SUB_F t (X, Y) i = (X - i, Y - i) := by
  intro i
  induction i with
  | zero => simp [unroll]
  | succ i ih =>
      simp only [unroll, ih, BOOST_PP_SUB_F, BOOST_PP_TUPLE2_ELEM0, BOOST_PP_TUPLE2_ELEM1,
        BOOST_PP_DEC]
      congr 1

theorem endsAfter_sub (X Y t : Nat) : EndsAfter BOOST_PP_SUB_C BOOST_PP_SUB_F t (X, Y) Y := by
  refine ⟨?_, ?_⟩
  · intro j hj
    rw [unroll_subF]
    simp only [BOOST_PP_SUB_C, BOOST_PP_TUPLE2_ELEM1]
    omega
  · rw [unroll_subF]
    simp [BOOST_PP_SUB_C, BOOST_PP_TUPLE2_ELEM1]

/-- Through rule `D`, the subtraction loop yields the saturating difference when
`D + Y ≤ 257`. -/
theorem BOOST_PP_SUB_D_ok (D X Y : Nat) (hD : D + Y ≤ 257) :
    BOOST_PP_SUB_D D X Y = Except.ok (X - Y) := by
  unfold BOOST_PP_SUB_D
  rw [BOOST_PP_WHILE_D_ok _ _ D (X, Y) Y hD (endsAfter_sub X Y (D + 2)), unroll_subF]
  rfl

theorem unroll_sumF (n : Nat) :
    ∀ (t s : Nat), unroll sumF t (s, n) n = (s + n * (n + 1) / 2, 0) := by
  induction n with
  | zero => intro t s; simp [unroll]
  | succ n ih =>
      intro t s
      rw [unroll_succ_shift]
      have e : sumF t (s, n + 1) = (s + (n + 1), n) := by simp [sumF]
      rw [e, ih]
      have h2 : (n + 1) * (n + 1 + 1) = n * (n + 1) + 2 * (n + 1) := by ring
      rw [h2, Nat.add_mul_div_left _ _ (by decide : 0 < 2)]
      congr 1; omega

theorem unroll_sumF_snd (i : Nat) :
    ∀ (t s n : Nat), (unroll sumF t (s, n) i).2 = n - i := by
  induction i with
  | zero => intro t s n; simp [unroll]
  | succ i ih =>
      intro t s n
      rw [unroll_succ_shift]
      have e : sumF t (s, n) = (s + n, n - 1) := by simp [sumF]
      rw [e, ih]; omega

theorem endsAfter_sum (t s n : Nat) : EndsAfter sumC sumF t (s, n) n := by
  refine ⟨?_, ?_⟩
  · intro j hj
    have h := unroll_sumF_snd j t s n
    simp only [sumC, h]
    rw [if_pos (by omega)]; decide
  · simp [sumC, unroll_sumF]

/-! # The `BOOST_PP_WHILE` contract -/

/-- Claim C1, as stated with the bound `k ≤ 259`, fails: in the summing loop started at
`(0,259)` the condition is true for `j = 1..259` and false at `j = 260`, so `k = 259`, yet
`BOOST_PP_WHILE` does not yield the unrolled state `X_259`: it ends in the poisoned rule
258. -/
theorem while_unrolls_259_counterexample :
    EndsAfter sumC sumF 1 (0, 259) 259 ∧ 259 ≤ 259 ∧
      BOOST_PP_WHILE sumC sumF (0, 259) ≠ Except.ok (unroll sumF 1 (0, 259) 259) ∧
      BOOST_PP_WHILE sumC sumF (0, 259)
        = Except.error (WhileError.recursionDepthExceeded 258) := by
  have he : EndsAfter sumC sumF 1 (0, 259) 259 := endsAfter_sum 1 0 259
  have hf := BOOST_PP_WHILE_error sumC sumF (0, 259) (fun j hj => he.1 j hj)
  refine ⟨he, le_refl _, ?_, hf⟩
  rw [hf]; exact fun h => by cases h

/-- Claim C1 (amended bound `k ≤ 258`): if `C(j, X_(j-1))` is true for `j = 1..k` and
`C(k+1, X_k)` is false, with `k ≤ 258`, then `BOOST_PP_WHILE(C,F,X0)` succeeds and yields
exactly `X_k`, the result of manually unrolling `k` applications of `F`. -/
theorem while_unrolls {α : Type} (C : Nat → α → Nat) (F : Nat → α → α) (X0 : α) (k : Nat)
    (hk : k ≤ 258)
    (htrue : ∀ j, 1 ≤ j → j ≤ k → C j (unroll F 1 X0 (j - 1)) ≠ 0)
    (hfalse : C (k + 1) (unroll F 1 X0 k) = 0) :
    BOOST_PP_WHILE C F X0 = Except.ok (unroll F 1 X0 k) := by
  apply BOOST_PP_WHILE_ok C F X0 k hk
  refine ⟨(allTrue_iff_tags C F X0 k).2 htrue, ?_⟩
  have e : 1 + k = k + 1 := by omega
  rwa [e]

/-- Witness of `while_unrolls`: the countdown from 3 takes 3 steps and yields 0. -/
theorem while_unrolls_witness : BOOST_PP_WHILE countC countF 3 = Except.ok 0 :=
  while_unrolls countC countF 3 3 (by decide) (by decide) (by decide)

/-- Claim C2: if `C(1, X0)` is false, `BOOST_PP_WHILE(C,F,X0)` returns `X0` unchanged and
`F` is applied at no tag; the result is the same for every other step `F2`. -/
theorem while_zero_iterations {α : Type} (C : Nat → α → Nat) (F : Nat → α → α) (X0 : α)
    (h0 : C 1 X0 = 0) :
    BOOST_PP_WHILE C F X0 = Except.ok X0 ∧
      BOOST_PP_WHILE_traced C F X0 = ([Event.cond 1], Except.ok X0) ∧
      stepTags (BOOST_PP_WHILE_traced C F X0).1 = [] ∧
      ∀ F2 : Nat → α → α, BOOST_PP_WHILE C F2 X0 = BOOST_PP_WHILE C F X0 := by
  have h : ∀ G : Nat → α → α, BOOST_PP_WHILE C G X0 = Except.ok X0 := fun G =>
    BOOST_PP_WHILE_C_false h0 _ _ _
  have ht : BOOST_PP_WHILE_traced C F X0 = ([Event.cond 1], Except.ok X0) := by
    simp [BOOST_PP_WHILE_traced, h0]
  refine ⟨h F, ht, ?_, fun F2 => by rw [h F2, h F]⟩
  rw [ht]; rfl

/-- Witness of `while_zero_iterations`: a condition that is false everywhere, with the
countdown step, started at 7. -/
theorem while_zero_iterations_witness :
    BOOST_PP_WHILE (fun _ _ => 0) countF 7 = Except.ok 7 :=
  (while_zero_iterations (fun _ _ => 0) countF 7 rfl).1

/-- Claim C3: `BOOST_PP_WHILE(C,F,X0)` fails if and only if `C(j, X_(j-1))` is true at
every depth `j` from 1 up to 259; a failure is always the poisoned rule 258; in every
other case a state is returned (the unrolling stopped at the first false condition); and
a condition that is always true fails for every `F` and `X0`. -/
theorem while_fails_iff {α : Type} (C : Nat → α → Nat) (F : Nat → α → α) (X0 : α) :
    ((∃ e, BOOST_PP_WHILE C F X0 = Except.error e) ↔
        ∀ j, 1 ≤ j → j ≤ 259 → C j (unroll F 1 X0 (j - 1)) ≠ 0) ∧
      (∀ e, BOOST_PP_WHILE C F X0 = Except.error e →
        e = WhileError.recursionDepthExceeded 258) ∧
      ((¬ ∀ j, 1 ≤ j → j ≤ 259 → C j (unroll F 1 X0 (j - 1)) ≠ 0) →
        ∃ k, k ≤ 258 ∧ EndsAfter C F 1 X0 k ∧
          BOOST_PP_WHILE C F X0 = Except.ok (unroll F 1 X0 k)) ∧
      ((∀ d x, C d x ≠ 0) →
        BOOST_PP_WHILE C F X0 = Except.error (WhileError.recursionDepthExceeded 258)) := by
  rw [← allTrue_iff_tags]
  rcases allTrue_or_endsAfter C F 259 1 X0 with h | ⟨m, hm, he⟩
  · have hf := BOOST_PP_WHILE_error C F X0 h
    refine ⟨⟨fun _ => h, fun _ => ⟨_, hf⟩⟩, ?_, fun hn => absurd h hn, fun _ => hf⟩
    intro e hE
    rw [hf] at hE
    cases hE; rfl
  · have hok := BOOST_PP_WHILE_ok C F X0 m (by omega) he
    have hnot : ¬ AllTrue C F 1 X0 259 := fun h => by
      have := allTrue_not_endsAfter h he
      omega
    refine ⟨⟨?_, fun h => absurd h hnot⟩, ?_, fun _ => ⟨m, by omega, he, hok⟩, ?_⟩
    · rintro ⟨e, hE⟩
      rw [hok] at hE
      cases hE
    · intro e hE
      rw [hok] at hE
      cases hE
    · intro hall
      exact absurd (allTrue_of_always C F 1 X0 259 hall) hnot

/-- Witness of `while_fails_iff`: a condition that is always 1 fails with the countdown
step from 0. -/
theorem while_fails_iff_witness :
    BOOST_PP_WHILE (fun _ _ => 1) countF 0
      = Except.error (WhileError.recursionDepthExceeded 258) :=
  (while_fails_iff (fun _ _ => 1) countF 0).2.2.2 (fun _ _ => by decide)

/-- Claim C4, as stated with the ceiling 259, fails: the countdown from 259 has a
condition that is true for exactly 259 consecutive steps and false afterwards, and
`BOOST_PP_WHILE` does not succeed on it. -/
theorem while_boundary_259_counterexample :
    EndsAfter countC countF 1 259 259 ∧
      ¬ ∃ x, BOOST_PP_WHILE countC countF 259 = Except.ok x := by
  have he : EndsAfter countC countF 1 259 259 := endsAfter_count 1 259
  have hf := BOOST_PP_WHILE_error countC countF 259 (fun j hj => he.1 j hj)
  refine ⟨he, ?_⟩
  rintro ⟨x, hx⟩
  rw [hf] at hx
  cases hx

/-- Claim C4 (amended boundary 258): for every `F` and `X0`, a condition that is true for
exactly 258 consecutive steps along the trajectory and false afterwards makes
`BOOST_PP_WHILE(C,F,X0)` succeed, returning the state after 258 applications of `F`,
while a condition that is true for 259 consecutive steps (whatever it is afterwards, so
also one that is true for 260 steps) makes it fail. -/
theorem while_boundary {α : Type} (C : Nat → α → Nat) (F : Nat → α → α) (X0 : α) :
    (((∀ j, 1 ≤ j → j ≤ 258 → C j (unroll F 1 X0 (j - 1)) ≠ 0) ∧
        C 259 (unroll F 1 X0 258) = 0) →
      BOOST_PP_WHILE C F X0 = Except.ok (unroll F 1 X0 258)) ∧
    ((∀ j, 1 ≤ j → j ≤ 259 → C j (unroll F 1 X0 (j - 1)) ≠ 0) →
      BOOST_PP_WHILE C F X0 = Except.error (WhileError.recursionDepthExceeded 258)) ∧
    ((∀ j, 1 ≤ j → j ≤ 260 → C j (unroll F 1 X0 (j - 1)) ≠ 0) →
      BOOST_PP_WHILE C F X0 = Except.error (WhileError.recursionDepthExceeded 258)) := by
  refine ⟨?_, ?_, ?_⟩
  · rintro ⟨ht, hf⟩
    exact BOOST_PP_WHILE_ok C F X0 258 (le_refl _) ⟨(allTrue_iff_tags C F X0 258).2 ht, hf⟩
  · intro ht
    exact BOOST_PP_WHILE_error C F X0 ((allTrue_iff_tags C F X0 259).2 ht)
  · intro ht
    exact BOOST_PP_WHILE_error C F X0
      ((allTrue_iff_tags C F X0 259).2 (fun j h1 h2 => ht j h1 (by omega)))

/-- Witness of `while_boundary`: the countdown from 258 succeeds with 0 and the countdown
from 259 fails. -/
theorem while_boundary_witness :
    BOOST_PP_WHILE countC countF 258 = Except.ok (unroll countF 1 258 258) ∧
      BOOST_PP_WHILE countC countF 259
        = Except.error (WhileError.recursionDepthExceeded 258) :=
  ⟨(while_boundary countC countF 258).1
      ⟨(allTrue_iff_tags countC countF 258 258).1 (endsAfter_count 1 258).1,
        (endsAfter_count 1 258).2⟩,
    (while_boundary countC countF 259).2.1
      ((allTrue_iff_tags countC countF 259 259).1 (endsAfter_count 1 259).1)⟩

/-- Claim C5: with `C(D,(sum,n)) = (n != 0)` and `F(D,(sum,n)) = (sum+n, n-1)`,
`BOOST_PP_WHILE(C,F,(0,5))` yields `(15,0)`, and for every `n ≤ 258`
`BOOST_PP_WHILE(C,F,(0,n))` yields `(n*(n+1)/2, 0)`. -/
theorem while_sum_example :
    BOOST_PP_WHILE sumC sumF (0, 5) = Except.ok (15, 0) ∧
      ∀ n, n ≤ 258 → BOOST_PP_WHILE sumC sumF (0, n) = Except.ok (n * (n + 1) / 2, 0) := by
  have h : ∀ n, n ≤ 258 →
      BOOST_PP_WHILE sumC sumF (0, n) = Except.ok (n * (n + 1) / 2, 0) := by
    intro n hn
    rw [BOOST_PP_WHILE_ok sumC sumF (0, n) n hn (endsAfter_sum 1 0 n), unroll_sumF]
    simp
  exact ⟨h 5 (by decide), h⟩

/-- Witness of `while_sum_example`: the sum of 10..1 is 55. -/
theorem while_sum_example_witness :
    BOOST_PP_WHILE sumC sumF (0, 10) = Except.ok (55, 0) :=
  while_sum_example.2 10 (by decide)

/-- Claim C7: in every run of `BOOST_PP_WHILE(C,F,X0)` the condition is evaluated at the
tags `1, 2, ..., n` in that order with `1 ≤ n ≤ 259`, every tag handed to `C` or `F` is
between 1 and 259, and the events are `C(1), F(1), C(2), F(2), ...`: each tag passed to
`F` is the tag at which `C` was just evaluated.  A successful run ends with `C(n)` false
after `n - 1` steps; a failing run has `n = 259` and all 259 conditions true. -/
theorem while_depth_tags {α : Type} (C : Nat → α → Nat) (F : Nat → α → α) (X0 : α) :
    (BOOST_PP_WHILE_traced C F X0).2 = BOOST_PP_WHILE C F X0 ∧
    ∃ n, 1 ≤ n ∧ n ≤ 259 ∧
      condTags (BOOST_PP_WHILE_traced C F X0).1 = List.range' 1 n ∧
      (∀ e ∈ (BOOST_PP_WHILE_traced C F X0).1, 1 ≤ e.tag ∧ e.tag ≤ 259) ∧
      (((BOOST_PP_WHILE_traced C F X0).1 = tagPairs 1 (n - 1) ++ [Event.cond n] ∧
          stepTags (BOOST_PP_WHILE_traced C F X0).1 = List.range' 1 (n - 1) ∧
          BOOST_PP_WHILE C F X0 = Except.ok (unroll F 1 X0 (n - 1))) ∨
        (n = 259 ∧ (BOOST_PP_WHILE_traced C F X0).1 = tagPairs 1 259 ∧
          stepTags (BOOST_PP_WHILE_traced C F X0).1 = List.range' 1 259 ∧
          BOOST_PP_WHILE C F X0 = Except.error (WhileError.recursionDepthExceeded 258))) := by
  refine ⟨BOOST_PP_WHILE_traced_snd C F X0, ?_⟩
  rcases allTrue_or_endsAfter C F 259 1 X0 with h | ⟨m, hm, he⟩
  · have hev := BOOST_PP_WHILE_traced_error_events C F X0 h
    refine ⟨259, by omega, le_refl _, ?_, ?_, Or.inr ⟨rfl, hev, ?_,
      BOOST_PP_WHILE_error C F X0 h⟩⟩
    · rw [hev, condTags_tagPairs]
    · intro e he
      rw [hev] at he
      have := tag_mem_tagPairs 259 1 e he
      omega
    · rw [hev, stepTags_tagPairs]
  · have hev := BOOST_PP_WHILE_traced_ok_events C F X0 m (by omega) he
    have e1 : m + 1 - 1 = m := by omega
    have e2 : 1 + m = m + 1 := by omega
    refine ⟨m + 1, by omega, by omega, ?_, ?_, Or.inl ⟨?_, ?_, ?_⟩⟩
    · rw [hev, condTags_append, condTags_tagPairs]
      simp [condTags, List.range'_concat]
    · intro e hmem
      rw [hev, List.mem_append] at hmem
      rcases hmem with hmem | hmem
      · have := tag_mem_tagPairs m 1 e hmem
        omega
      · simp only [List.mem_singleton] at hmem
        subst hmem
        simp only [Event.tag]; omega
    · rw [hev, e1, e2]
    · rw [hev, stepTags_append, stepTags_tagPairs, e1]
      simp [stepTags]
    · rw [e1]; exact BOOST_PP_WHILE_ok C F X0 m (by omega) he

/-! # The clients of the rule family -/

/-- Claim C8: for every list `L` and every `N ≤ length(L)` within the iteration budget of
rule 0 (`N ≤ 257`), `BOOST_PP_LIST_REST_N(N,L)` is `L` with its first `N` elements
dropped, in the original order; in particular `BOOST_PP_LIST_REST_N(0,L) = L` and
`BOOST_PP_LIST_REST_N(2, [+,-,*,/]) = [*,/]`. -/
theorem list_rest_n_drops {τ : Type} (N : Nat) (L : List τ) (hN : N ≤ L.length)
    (hB : N ≤ 257) :
    BOOST_PP_LIST_REST_N N L = Except.ok (some (L.drop N)) ∧
      BOOST_PP_LIST_REST_N 0 L = Except.ok (some L) ∧
      BOOST_PP_LIST_REST_N 2 [OpToken.plus, OpToken.minus, OpToken.times, OpToken.divide]
        = Except.ok (some [OpToken.times, OpToken.divide]) := by
  refine ⟨?_, ?_, ?_⟩
  · exact BOOST_PP_LIST_REST_N_D_ok 0 N L hN (by omega)
  · exact BOOST_PP_LIST_REST_N_D_ok 0 0 L (Nat.zero_le _) (by omega)
  · exact BOOST_PP_LIST_REST_N_D_ok 0 2 _ (by decide) (by omega)

/-- Witness of `list_rest_n_drops`: dropping 3 of the 4 operator tokens leaves `/`. -/
theorem list_rest_n_drops_witness :
    BOOST_PP_LIST_REST_N 3 [OpToken.plus, OpToken.minus, OpToken.times, OpToken.divide]
      = Except.ok (some [OpToken.divide]) :=
  (list_rest_n_drops 3 [OpToken.plus, OpToken.minus, OpToken.times, OpToken.divide]
    (by decide) (by decide)).1

/-- Claim C9: for all `X` and `Y` in the supported magnitude range
`0..BOOST_PP_LIMIT_MAG`, `BOOST_PP_LESS_EQUAL(X,Y)` expands to 1 if `X ≤ Y` and to 0
otherwise, `BOOST_PP_SUB_D` being the saturating subtraction computed by `Y` iterations
of the rule family and `BOOST_PP_NOT` mapping 0 to 1 and non-zero to 0. -/
theorem less_equal_correct (X Y : Nat) (hX : X ≤ BOOST_PP_LIMIT_MAG)
    (hY : Y ≤ BOOST_PP_LIMIT_MAG) :
    BOOST_PP_LESS_EQUAL X Y = Except.ok (if X ≤ Y then 1 else 0) ∧
      BOOST_PP_SUB_D 0 X Y = Except.ok (X - Y) ∧ X - Y ≤ BOOST_PP_LIMIT_MAG := by
  have hY2 : Y ≤ 128 := hY
  have hX2 : X ≤ 128 := hX
  have hs := BOOST_PP_SUB_D_ok 0 X Y (by omega)
  refine ⟨?_, hs, by show X - Y ≤ 128; omega⟩
  unfold BOOST_PP_LESS_EQUAL BOOST_PP_LESS_EQUAL_D
  rw [hs]
  show Except.ok (BOOST_PP_NOT (X - Y)) = _
  unfold BOOST_PP_NOT
  by_cases h : X ≤ Y
  · rw [if_pos (by omega), if_pos h]
  · rw [if_neg (by omega), if_neg h]

/-- Witness of `less_equal_correct`: `BOOST_PP_LESS_EQUAL(128,127)` is 0. -/
theorem less_equal_correct_witness : BOOST_PP_LESS_EQUAL 128 127 = Except.ok 0 :=
  (less_equal_correct 128 127 (by decide) (by decide)).1

/-- Claim C10: `BOOST_PP_NOR(X,Y)` expands to 1 if `X = 0` and `Y = 0`, and to 0
otherwise; in particular `BOOST_PP_NOR(0,5)` is 0, and the four table entries
`BOOST_PP_NOR_BOOL00/01/10/11` are `not (x or y)`. -/
theorem nor_correct (X Y : Nat) :
    BOOST_PP_NOR X Y = some (if X = 0 ∧ Y = 0 then 1 else 0) ∧
      BOOST_PP_NOR 0 5 = some 0 ∧
      ∀ x y : Bool, BOOST_PP_NOR_BOOL x.toNat y.toNat = some (!(x || y)).toNat := by
  refine ⟨?_, by decide, by decide⟩
  unfold BOOST_PP_NOR BOOST_PP_NOR_BOOL BOOST_PP_BOOL
  by_cases hx : X = 0 <;> by_cases hy : Y = 0 <;> simp [hx, hy, BOOST_PP_NOR_BOOL_DELAY]

/-! # The multiplication example and the size of the rule family -/

/-- The depth-tagged rule `D` of the nested rules follows a given sequence of `m` steps
when `D + m ≤ 257`. -/
theorem BOOST_PP_WHILE_D_nested_follows {α : Type} (C : Nat → α → Nat)
    (F : Nat → α → Except WhileError α) (D : Nat) (tr : Nat → α) (m : Nat)
    (hm : D + m ≤ 257)
    (hstep : ∀ j, j < m →
      C (D + 2 + j) (tr j) ≠ 0 ∧ F (D + 2 + j) (tr j) = Except.ok (tr (j + 1)))
    (hend : C (D + 2 + m) (tr m) = 0) :
    BOOST_PP_WHILE_D_nested C F D (tr 0) = Except.ok (tr m) := by
  unfold BOOST_PP_WHILE_D_nested
  rw [if_pos (by omega)]
  exact whileRulesNested_follows C F (258 - D) D tr m (by omega) hstep hend

theorem unroll_addF (X Y t : Nat) :
    ∀ i, unroll BOOST_PP_ADD_F t (X, Y) i = (X + i, Y - i) := by
  intro i
  induction i with
  | zero => simp [unroll]
  | succ i ih =>
      simp only [unroll, ih, BOOST_PP_ADD_F, BOOST_PP_TUPLE2_ELEM0, BOOST_PP_TUPLE2_ELEM1,
        BOOST_PP_DEC, BOOST_PP_INC]
      congr 1

theorem endsAfter_add (X Y t : Nat) : EndsAfter BOOST_PP_ADD_C BOOST_PP_ADD_F t (X, Y) Y := by
  refine ⟨?_, ?_⟩
  · intro j hj
    rw [unroll_addF]
    simp only [BOOST_PP_ADD_C, BOOST_PP_TUPLE2_ELEM1]
    omega
  · rw [unroll_addF]
    simp [BOOST_PP_ADD_C, BOOST_PP_TUPLE2_ELEM1]

/-- Through rule `D`, the addition loop yields the sum when `D + Y ≤ 257`. -/
theorem BOOST_PP_ADD_D_ok (D X Y : Nat) (hD : D + Y ≤ 257) :
    BOOST_PP_ADD_D D X Y = Except.ok (X + Y) := by
  unfold BOOST_PP_ADD_D
  rw [BOOST_PP_WHILE_D_ok _ _ D (X, Y) Y hD (endsAfter_add X Y (D + 2)), unroll_addF]
  simp [Except.map, BOOST_PP_TUPLE2_ELEM0]

/-- The multiplication loop through rule `D`: when the outer loop fits (`D + Y ≤ 257`) and
every inner addition, started by the step at tag `D + 2 + j`, fits as well, the final
state is `(X*Y, X, 0)`. -/
theorem BOOST_PP_MUL_loop_ok (D X Y : Nat) (houter : D + Y ≤ 257)
    (hinner : ∀ j, j < Y → D + 2 + j + X ≤ 257) :
    BOOST_PP_WHILE_D_nested BOOST_PP_MUL_C BOOST_PP_MUL_F D (0, X, Y)
      = Except.ok (X * Y, X, 0) := by
  have h := BOOST_PP_WHILE_D_nested_follows BOOST_PP_MUL_C BOOST_PP_MUL_F D
    (fun j => (j * X, X, Y - j)) Y houter
    (fun j hj => by
      refine ⟨?_, ?_⟩
      · simp only [BOOST_PP_MUL_C, BOOST_PP_TUPLE_ELEM_3_2]; omega
      · simp only [BOOST_PP_MUL_F, BOOST_PP_TUPLE_ELEM_3_0, BOOST_PP_TUPLE_ELEM_3_1,
          BOOST_PP_TUPLE_ELEM_3_2, BOOST_PP_DEC]
        rw [BOOST_PP_ADD_D_ok _ _ _ (hinner j hj)]
        have e1 : j * X + X = (j + 1) * X := by ring
        have e2 : Y - j - 1 = Y - (j + 1) := by omega
        simp [Except.map, e1, e2])
    (by simp [BOOST_PP_MUL_C, BOOST_PP_TUPLE_ELEM_3_2])
  simp only [Nat.zero_mul, Nat.sub_zero, Nat.sub_self] at h
  rw [h, Nat.mul_comm]

/-- Claim C12: the maximum iteration depth is greater than `2*BOOST_PP_LIMIT_MAG`: a loop
started at `BOOST_PP_WHILE` can complete 258 steps and one started at `BOOST_PP_WHILE0`
257 steps, both more than 256, and for all `X, Y ≤ BOOST_PP_LIMIT_MAG` the two-level nest
of `BOOST_PP_MUL(X,Y)` never reaches a poisoned rule: every inner addition returns its
sum and the product is returned. -/
theorem depth_exceeds_twice_limit_mag :
    2 * BOOST_PP_LIMIT_MAG < 258 ∧ 2 * BOOST_PP_LIMIT_MAG < 257 ∧
      (∀ k, k ≤ 258 → BOOST_PP_WHILE countC countF k = Except.ok 0) ∧
      (∀ k, k ≤ 257 → BOOST_PP_WHILE_D countC countF 0 k = Except.ok 0) ∧
      ∀ X Y, X ≤ BOOST_PP_LIMIT_MAG → Y ≤ BOOST_PP_LIMIT_MAG →
        BOOST_PP_MUL X Y = Except.ok (X * Y) ∧
          ∀ j, j < Y → BOOST_PP_ADD_D (j + 2) (j * X) X = Except.ok ((j + 1) * X) := by
  refine ⟨by decide, by decide, ?_, ?_, ?_⟩
  · intro k hk
    rw [BOOST_PP_WHILE_ok countC countF k k hk (endsAfter_count 1 k), unroll_countF]
    simp
  · intro k hk
    rw [BOOST_PP_WHILE_D_ok countC countF 0 k k (by omega) (endsAfter_count _ k),
      unroll_countF]
    simp
  · intro X Y hX hY
    have hX2 : X ≤ 128 := hX
    have hY2 : Y ≤ 128 := hY
    refine ⟨?_, ?_⟩
    · unfold BOOST_PP_MUL BOOST_PP_MUL_D
      rw [BOOST_PP_MUL_loop_ok 0 X Y (by omega) (fun j hj => by omega)]
      rfl
    · intro j hj
      rw [BOOST_PP_ADD_D_ok _ _ _ (by omega)]
      congr 1; ring

/-- Witness of `depth_exceeds_twice_limit_mag`: `BOOST_PP_MUL(128,128)` is 16384. -/
theorem depth_exceeds_twice_limit_mag_witness : BOOST_PP_MUL 128 128 = Except.ok 16384 :=
  (depth_exceeds_twice_limit_mag.2.2.2.2 128 128 (by decide) (by decide)).1

/-! # Further properties of the rule family -/

section TagLemmas

variable {α : Type}

theorem traced_tags_ok (C : Nat → α → Nat) (F : Nat → α → α) (X : α) (k : Nat)
    (hk : k ≤ 258) (he : EndsAfter C F 1 X k) :
    condTags (BOOST_PP_WHILE_traced C F X).1 = List.range' 1 (k + 1) ∧
      stepTags (BOOST_PP_WHILE_traced C F X).1 = List.range' 1 k := by
  rw [BOOST_PP_WHILE_traced_ok_events C F X k hk he]
  refine ⟨?_, ?_⟩
  · rw [condTags_append, condTags_tagPairs]
    simp [condTags, List.range'_concat]
  · rw [stepTags_append, stepTags_tagPairs]
    simp [stepTags]

theorem traced_tags_error (C : Nat → α → Nat) (F : Nat → α → α) (X : α)
    (h : AllTrue C F 1 X 259) :
    condTags (BOOST_PP_WHILE_traced C F X).1 = List.range' 1 259 ∧
      stepTags (BOOST_PP_WHILE_traced C F X).1 = List.range' 1 259 := by
  rw [BOOST_PP_WHILE_traced_error_events C F X h]
  exact ⟨condTags_tagPairs 259 1, stepTags_tagPairs 259 1⟩

theorem unroll_congr (F F2 : Nat → α → α) (t : Nat) (X : α) (m : Nat)
    (h : ∀ i, i < m → F2 (t + i) (unroll F t X i) = F (t + i) (unroll F t X i)) :
    ∀ i, i ≤ m → unroll F2 t X i = unroll F t X i := by
  intro i
  induction i with
  | zero => intro _; rfl
  | succ i ih =>
      intro hi
      simp only [unroll]
      rw [ih (by omega)]
      exact h i (by omega)

/-- A successful run returns the unrolled state of the loop that ended. -/
theorem BOOST_PP_WHILE_ok_inv (C : Nat → α → Nat) (F : Nat → α → α) (X0 X : α)
    (h : BOOST_PP_WHILE C F X0 = Except.ok X) :
    ∃ k, k ≤ 258 ∧ EndsAfter C F 1 X0 k ∧ X = unroll F 1 X0 k := by
  rcases allTrue_or_endsAfter C F 259 1 X0 with ha | ⟨m, hm, he⟩
  · rw [BOOST_PP_WHILE_error C F X0 ha] at h
    cases h
  · rw [BOOST_PP_WHILE_ok C F X0 m (by omega) he] at h
    cases h
    exact ⟨m, by omega, he, rfl⟩

end TagLemmas

/-- Claim C15: the run is a function of `(C,F,X0)` whose only product is the outcome, and
it depends on `C` and `F` only through their values on the pairs it visits: if `C2`
agrees with `C` at every tag at which the condition was evaluated and `F2` agrees with
`F` at every tag that was handed to the step (on the states `X_(j-1)` of the run with
`C`, `F`), then `BOOST_PP_WHILE(C2,F2,X0)` gives the same outcome, state or failure, and
the same record of tags. -/
theorem while_referentially_transparent {α : Type} (C C2 : Nat → α → Nat)
    (F F2 : Nat → α → α) (X0 : α)
    (hC : ∀ j, j ∈ condTags (BOOST_PP_WHILE_traced C F X0).1 →
      C2 j (unroll F 1 X0 (j - 1)) = C j (unroll F 1 X0 (j - 1)))
    (hF : ∀ j, j ∈ stepTags (BOOST_PP_WHILE_traced C F X0).1 →
      F2 j (unroll F 1 X0 (j - 1)) = F j (unroll F 1 X0 (j - 1))) :
    BOOST_PP_WHILE C2 F2 X0 = BOOST_PP_WHILE C F X0 ∧
      BOOST_PP_WHILE_traced C2 F2 X0 = BOOST_PP_WHILE_traced C F X0 := by
  have key : ∀ m, (∀ j, 1 ≤ j → j ≤ m → F2 j (unroll F 1 X0 (j - 1))
      = F j (unroll F 1 X0 (j - 1))) → ∀ i, i ≤ m → unroll F2 1 X0 i = unroll F 1 X0 i := by
    intro m h
    apply unroll_congr F F2 1 X0 m
    intro i hi
    have := h (1 + i) (by omega) (by omega)
    have e : 1 + i - 1 = i := by omega
    rwa [e] at this
  rcases allTrue_or_endsAfter C F 259 1 X0 with ha | ⟨m, hm, he⟩
  · obtain ⟨hc, hs⟩ := traced_tags_error C F X0 ha
    rw [hc] at hC
    rw [hs] at hF
    have hu := key 259 (fun j h1 h2 => hF j (List.mem_range'_1.2 ⟨h1, by omega⟩))
    have ha2 : AllTrue C2 F2 1 X0 259 := by
      intro j hj
      rw [hu j (by omega)]
      have := hC (1 + j) (List.mem_range'_1.2 ⟨by omega, by omega⟩)
      have e : 1 + j - 1 = j := by omega
      rw [e] at this
      rw [this]
      exact ha j hj
    have r1 : BOOST_PP_WHILE C2 F2 X0 = BOOST_PP_WHILE C F X0 := by
      rw [BOOST_PP_WHILE_error C F X0 ha, BOOST_PP_WHILE_error C2 F2 X0 ha2]
    refine ⟨r1, Prod.ext ?_ ?_⟩
    · rw [BOOST_PP_WHILE_traced_error_events C F X0 ha,
        BOOST_PP_WHILE_traced_error_events C2 F2 X0 ha2]
    · rw [BOOST_PP_WHILE_traced_snd, BOOST_PP_WHILE_traced_snd, r1]
  · obtain ⟨hc, hs⟩ := traced_tags_ok C F X0 m (by omega) he
    rw [hc] at hC
    rw [hs] at hF
    have hu := key m (fun j h1 h2 => hF j (List.mem_range'_1.2 ⟨h1, by omega⟩))
    have hCj : ∀ j, j ≤ m → C2 (1 + j) (unroll F2 1 X0 j) = C (1 + j) (unroll F 1 X0 j) := by
      intro j hj
      rw [hu j hj]
      have := hC (1 + j) (List.mem_range'_1.2 ⟨by omega, by omega⟩)
      have e : 1 + j - 1 = j := by omega
      rwa [e] at this
    have he2 : EndsAfter C2 F2 1 X0 m := by
      refine ⟨?_, ?_⟩
      · intro j hj
        rw [hCj j (by omega)]
        exact he.1 j hj
      · rw [hCj m (le_refl _)]
        exact he.2
    have r1 : BOOST_PP_WHILE C2 F2 X0 = BOOST_PP_WHILE C F X0 := by
      rw [BOOST_PP_WHILE_ok C F X0 m (by omega) he,
        BOOST_PP_WHILE_ok C2 F2 X0 m (by omega) he2, hu m (le_refl _)]
    refine ⟨r1, Prod.ext ?_ ?_⟩
    · rw [BOOST_PP_WHILE_traced_ok_events C F X0 m (by omega) he,
        BOOST_PP_WHILE_traced_ok_events C2 F2 X0 m (by omega) he2]
    · rw [BOOST_PP_WHILE_traced_snd, BOOST_PP_WHILE_traced_snd, r1]

/-- Witness of `while_referentially_transparent`: the countdown from 2 visits the states
2, 1, 0; a condition and a step that differ from the countdown only on states above 2
give the same outcome. -/
theorem while_referentially_transparent_witness :
    BOOST_PP_WHILE (fun _ n => if n ≤ 2 then n else 0) (fun _ n => if n ≤ 2 then n - 1 else n) 2
      = BOOST_PP_WHILE countC countF 2 :=
  (while_referentially_transparent countC (fun _ n => if n ≤ 2 then n else 0)
    countF (fun _ n => if n ≤ 2 then n - 1 else n) 2
    (by decide) (by decide)).1

/-- Claim C16: for every `D` in 0..257, `BOOST_PP_WHILE##D(C,F,X)` evaluates `C` and `F`
with tag `D+2` and continues in rule `D+1`; when the loop `Y_0 = X`,
`Y_i = F(D+1+i, Y_(i-1))` first has `C(D+2+i, Y_i)` false at `i = m`, the rule succeeds
if and only if `D + m ≤ 257`, and then returns `Y_m`.  Rules 258 and 259 fail for every
`C`, `F` and `X`.  `BOOST_PP_LIST_REST_N_D(D,N,L)` with `N ≤ length(L)` succeeds if and
only if `D + N ≤ 257`. -/
theorem while_tagged_rule_budget {α τ : Type} (C : Nat → α → Nat) (F : Nat → α → α) (X : α) :
    (∀ D, D ≤ 257 →
        BOOST_PP_WHILE_D C F D X
            = BOOST_PP_WHILE_C (C (D + 2) X) (BOOST_PP_WHILE_D C F (D + 1)) X (F (D + 2) X) ∧
          (BOOST_PP_WHILE_D_traced C F D X).1.head? = some (Event.cond (D + 2))) ∧
      (∀ D m, D ≤ 257 → EndsAfter C F (D + 2) X m →
        ((∃ Y, BOOST_PP_WHILE_D C F D X = Except.ok Y) ↔ D + m ≤ 257) ∧
          (D + m ≤ 257 → BOOST_PP_WHILE_D C F D X = Except.ok (unroll F (D + 2) X m))) ∧
      BOOST_PP_WHILE_D C F 258 X = Except.error (WhileError.recursionDepthExceeded 258) ∧
      BOOST_PP_WHILE_D C F 259 X = Except.error (WhileError.recursionDepthExceeded 259) ∧
      ∀ (D N : Nat) (L : List τ), N ≤ L.length →
        ((∃ r, BOOST_PP_LIST_REST_N_D D N L = Except.ok r) ↔ D + N ≤ 257) := by
  have budget : ∀ {β : Type} (C : Nat → β → Nat) (F : Nat → β → β) (X : β) (D m : Nat),
      EndsAfter C F (D + 2) X m →
      ((∃ Y, BOOST_PP_WHILE_D C F D X = Except.ok Y) ↔ D + m ≤ 257) := by
    intro β C F X D m he
    constructor
    · rintro ⟨Y, hY⟩
      by_contra hlt
      unfold BOOST_PP_WHILE_D at hY
      by_cases h8 : D ≤ 258
      · rw [if_pos h8, whileRules_error C F (258 - D) D X
          (fun j hj => he.1 j (by omega))] at hY
        cases hY
      · rw [if_neg h8] at hY
        by_cases h9 : D = 259
        · rw [if_pos h9] at hY; cases hY
        · rw [if_neg h9] at hY; cases hY
    · intro hm
      exact ⟨_, BOOST_PP_WHILE_D_ok C F D X m hm he⟩
  refine ⟨?_, ?_, ?_, ?_, ?_⟩
  · intro D hD
    have e : 258 - D = (257 - D) + 1 := by omega
    have e2 : 258 - (D + 1) = 257 - D := by omega
    refine ⟨?_, ?_⟩
    · have hfun : BOOST_PP_WHILE_D C F (D + 1) = whileRules C F (257 - D) (D + 1) := by
        funext Y
        unfold BOOST_PP_WHILE_D
        rw [if_pos (by omega), e2]
      rw [hfun]
      unfold BOOST_PP_WHILE_D
      rw [if_pos (by omega), e]
      rfl
    · unfold BOOST_PP_WHILE_D_traced
      rw [if_pos (by omega), e]
      simp only [whileRulesTraced]
      by_cases h0 : C (D + 2) X = 0
      · simp [h0]
      · simp [h0]
  · intro D m _ he
    exact ⟨budget C F X D m he, fun hm => BOOST_PP_WHILE_D_ok C F D X m hm he⟩
  · rfl
  · rfl
  · intro D N L hN
    have hb := budget BOOST_PP_LIST_REST_N_C BOOST_PP_LIST_REST_N_F (some L, N) D N
      (endsAfter_restN L N (D + 2) hN)
    rw [← hb]
    unfold BOOST_PP_LIST_REST_N_D
    constructor
    · rintro ⟨r, hr⟩
      cases hw : BOOST_PP_WHILE_D BOOST_PP_LIST_REST_N_C BOOST_PP_LIST_REST_N_F D (some L, N) with
      | error e => rw [hw] at hr; cases hr
      | ok Y => exact ⟨Y, rfl⟩
    · rintro ⟨Y, hY⟩
      rw [hY]
      exact ⟨_, rfl⟩

/-- Witness of `while_tagged_rule_budget`: the countdown from 5 through rule 252 takes 5
steps and succeeds (`252 + 5 ≤ 257`). -/
theorem while_tagged_rule_budget_witness :
    BOOST_PP_WHILE_D countC countF 252 5 = Except.ok (unroll countF 254 5 5) :=
  ((@while_tagged_rule_budget Nat Nat countC countF 5).2.1 252 5 (by decide)
    (endsAfter_count 254 5)).2 (by decide)

/-- Claim C18 (exit postcondition): whenever `BOOST_PP_WHILE(C,F,X0)` succeeds and returns
`X`, it did so after some `k ≤ 258` applications of `F` (the step was handed the tags
`1..k`), `X` is the unrolled state `X_k`, the condition is false on the returned state
at the next tag, `C(k+1, X) = 0`, and it was true at every earlier point,
`C(j, X_(j-1)) ≠ 0` for `1 ≤ j ≤ k`. -/
theorem while_exit_postcondition {α : Type} (C : Nat → α → Nat) (F : Nat → α → α)
    (X0 X : α) (h : BOOST_PP_WHILE C F X0 = Except.ok X) :
    ∃ k, k ≤ 258 ∧ stepTags (BOOST_PP_WHILE_traced C F X0).1 = List.range' 1 k ∧
      X = unroll F 1 X0 k ∧ C (k + 1) X = 0 ∧
      ∀ j, 1 ≤ j → j ≤ k → C j (unroll F 1 X0 (j - 1)) ≠ 0 := by
  obtain ⟨k, hk, he, hX⟩ := BOOST_PP_WHILE_ok_inv C F X0 X h
  refine ⟨k, hk, (traced_tags_ok C F X0 k hk he).2, hX, ?_,
    (allTrue_iff_tags C F X0 k).1 he.1⟩
  have := he.2
  have e : 1 + k = k + 1 := by omega
  rw [e] at this
  rw [hX]; exact this

/-- Witness of `while_exit_postcondition`: the countdown from 4 returns 0, on which the
condition is 0. -/
theorem while_exit_postcondition_witness :
    ∃ k, k ≤ 258 ∧ stepTags (BOOST_PP_WHILE_traced countC countF 4).1 = List.range' 1 k ∧
      0 = unroll countF 1 4 k ∧ countC (k + 1) 0 = 0 ∧
      ∀ j, 1 ≤ j → j ≤ k → countC j (unroll countF 1 4 (j - 1)) ≠ 0 :=
  while_exit_postcondition countC countF 4 0 (by decide)

/-- Claim C19 (loop-invariant preservation): if `P(X0)` holds and `F` preserves `P` at
every depth tag in 1..259, then every successful result of `BOOST_PP_WHILE(C,F,X0)`
satisfies `P`; and a successful result is `X0` itself or a value `F(D,Y)` produced by the
step at a tag in 1..258, never anything else. -/
theorem while_preserves_invariant {α : Type} (C : Nat → α → Nat) (F : Nat → α → α)
    (X0 X : α) (P : α → Prop) (h : BOOST_PP_WHILE C F X0 = Except.ok X) :
    ((P X0 ∧ ∀ D Y, 1 ≤ D → D ≤ 259 → P Y → P (F D Y)) → P X) ∧
      (X = X0 ∨ ∃ D Y, 1 ≤ D ∧ D ≤ 258 ∧ X = F D Y) := by
  obtain ⟨k, hk, _, hX⟩ := BOOST_PP_WHILE_ok_inv C F X0 X h
  refine ⟨?_, ?_⟩
  · rintro ⟨h0, hP⟩
    have : ∀ i, i ≤ 258 → P (unroll F 1 X0 i) := by
      intro i
      induction i with
      | zero => intro _; exact h0
      | succ i ih =>
          intro hi
          exact hP (1 + i) _ (by omega) (by omega) (ih (by omega))
    rw [hX]; exact this k hk
  · cases k with
    | zero => left; exact hX
    | succ k => right; exact ⟨1 + k, unroll F 1 X0 k, by omega, by omega, hX⟩

/-- Witness of `while_preserves_invariant`: the summing loop from `(0,4)` keeps the
second element at most 4. -/
theorem while_preserves_invariant_witness : (10, 0).2 ≤ 4 :=
  (while_preserves_invariant sumC sumF (0, 4) (10, 0) (fun X => X.2 ≤ 4) (by decide)).1
    ⟨by decide, fun D Y _ _ hY => by
      show Y.2 - 1 ≤ 4
      have : Y.2 ≤ 4 := hY
      omega⟩

/-- Claim C20: `BOOST_PP_LIST_REST_N` composes additively.  For every list `L` and all
`M`, `N` with `M + N ≤ length(L)` and `M + N ≤ 257` (the iteration budget of rule 0),
`BOOST_PP_LIST_REST_N(N,L)` is a list `L2` of length `length(L) - N`, and
`BOOST_PP_LIST_REST_N(M,L2)` equals `BOOST_PP_LIST_REST_N(M+N,L)`. -/
theorem list_rest_n_composes {τ : Type} (M N : Nat) (L : List τ)
    (hlen : M + N ≤ L.length) (hbudget : M + N ≤ 257) :
    ∃ L2, BOOST_PP_LIST_REST_N N L = Except.ok (some L2) ∧
      L2.length = L.length - N ∧
      BOOST_PP_LIST_REST_N M L2 = BOOST_PP_LIST_REST_N (M + N) L ∧
      BOOST_PP_LIST_REST_N (M + N) L = Except.ok (some (L.drop (M + N))) := by
  refine ⟨L.drop N, BOOST_PP_LIST_REST_N_D_ok 0 N L (by omega) (by omega),
    List.length_drop N L, ?_, BOOST_PP_LIST_REST_N_D_ok 0 (M + N) L hlen (by omega)⟩
  show BOOST_PP_LIST_REST_N_D 0 M (L.drop N) = BOOST_PP_LIST_REST_N_D 0 (M + N) L
  rw [BOOST_PP_LIST_REST_N_D_ok 0 M (L.drop N) (by rw [List.length_drop]; omega) (by omega),
    BOOST_PP_LIST_REST_N_D_ok 0 (M + N) L hlen (by omega), List.drop_drop]
  congr 3; omega

/-- Witness of `list_rest_n_composes`: dropping 1 and then 2 of the 4 operator tokens is
dropping 3. -/
theorem list_rest_n_composes_witness :
    ∃ L2, BOOST_PP_LIST_REST_N 1 [OpToken.plus, OpToken.minus, OpToken.times, OpToken.divide]
        = Except.ok (some L2) ∧
      L2.length = [OpToken.plus, OpToken.minus, OpToken.times, OpToken.divide].length - 1 ∧
      BOOST_PP_LIST_REST_N 2 L2
        = BOOST_PP_LIST_REST_N (2 + 1)
            [OpToken.plus, OpToken.minus, OpToken.times, OpToken.divide] ∧
      BOOST_PP_LIST_REST_N (2 + 1) [OpToken.plus, OpToken.minus, OpToken.times, OpToken.divide]
        = Except.ok (some ([OpToken.plus, OpToken.minus, OpToken.times,
            OpToken.divide].drop (2 + 1))) :=
  list_rest_n_composes 2 1 [OpToken.plus, OpToken.minus, OpToken.times, OpToken.divide]
    (by decide) (by decide)

/-! # Rules under expansion -/

section GuardedLemmas

variable {α : Type}

theorem below_mono {D D2 : Nat} {active : List Rule} (h : Below D active) (hle : D ≤ D2) :
    Below D2 active := by
  intro r hr
  rcases h r hr with h1 | ⟨d, hd, h2⟩
  · exact Or.inl h1
  · exact Or.inr ⟨d, by omega, h2⟩

theorem below_cons {D D2 : Nat} {active : List Rule} (h : Below D active) (hlt : D < D2) :
    Below D2 (Rule.tagged D :: active) := by
  intro r hr
  rcases List.mem_cons.1 hr with h1 | h1
  · exact Or.inr ⟨D, hlt, h1⟩
  · exact below_mono h (by omega) r h1

theorem not_mem_of_below {D d : Nat} {active : List Rule} (h : Below D active)
    (hd : D ≤ d) : Rule.tagged d ∉ active := by
  intro hm
  rcases h _ hm with h1 | ⟨e, he, h2⟩
  · cases h1
  · cases h2; omega

theorem below_activeAt : ∀ D, Below (D - 1) (activeAt D) := by
  intro D
  induction D using Nat.strongRecOn with
  | _ D ih =>
    match D with
    | 0 => intro r hr; simp [activeAt] at hr
    | 1 =>
        intro r hr
        simp only [activeAt, List.mem_singleton] at hr
        exact Or.inl hr
    | D + 2 =>
        have := ih (D + 1) (by omega)
        simp only [Nat.add_sub_cancel] at this
        exact below_cons this (by omega)

/-- A chain started at rule `D` while only rules below `D` are under expansion never
re-enters a rule, provided its step does not when it is expanded under rules below its
tag. -/
theorem whileRulesGuarded_no_reentry (C : Nat → α → Nat)
    (F : List Rule → Nat → α → Except ExpansionError α)
    (hF : ∀ active D X r, Below D active → F active D X ≠ Except.error (ExpansionError.reentered r))
    (n : Nat) :
    ∀ (D : Nat) (active : List Rule) (X : α) (r : Rule), Below D active →
      whileRulesGuarded C F n D active X ≠ Except.error (ExpansionError.reentered r) := by
  induction n with
  | zero =>
      intro D active X r hb
      simp only [whileRulesGuarded]
      rw [if_neg (not_mem_of_below hb (le_refl _))]
      intro h; cases h
  | succ n ih =>
      intro D active X r hb
      simp only [whileRulesGuarded]
      rw [if_neg (not_mem_of_below hb (le_refl _))]
      unfold BOOST_PP_IF
      by_cases h0 : C (D + 2) X ≠ 0
      · rw [if_pos h0]
        have hstep := hF (Rule.tagged D :: active) (D + 2) X r (below_cons hb (by omega))
        cases hs : F (Rule.tagged D :: active) (D + 2) X with
        | error e =>
            rw [hs] at hstep
            exact hstep
        | ok Y => exact ih (D + 1) _ Y r (below_cons hb (by omega))
      · rw [if_neg h0]
        intro h; cases h

theorem BOOST_PP_WHILE_D_guarded_no_reentry (C : Nat → α → Nat)
    (F : List Rule → Nat → α → Except ExpansionError α)
    (hF : ∀ active D X r, Below D active → F active D X ≠ Except.error (ExpansionError.reentered r))
    (D : Nat) (active : List Rule) (X : α) (r : Rule) (hb : Below D active) :
    BOOST_PP_WHILE_D_guarded C F D active X ≠ Except.error (ExpansionError.reentered r) := by
  unfold BOOST_PP_WHILE_D_guarded
  by_cases h8 : D ≤ 258
  · rw [if_pos h8]
    exact whileRulesGuarded_no_reentry C F hF _ D active X r hb
  · rw [if_neg h8]
    by_cases h9 : D = 259
    · rw [if_pos h9, if_neg (not_mem_of_below hb (by omega))]
      intro h; cases h
    · rw [if_neg h9]
      intro h; cases h

theorem loopNest_step_no_reentry (N : LoopNest α) :
    ∀ (active : List Rule) (D : Nat) (X : α) (r : Rule), Below D active →
      N.step active D X ≠ Except.error (ExpansionError.reentered r) := by
  induction N with
  | prim f => intro active D X r _ h; cases h
  | nest C body ih =>
      intro active D X r hb
      exact BOOST_PP_WHILE_D_guarded_no_reentry C body.step ih D active X r hb

theorem whileRulesGuarded_activeAt (C : Nat → α → Nat)
    (F : List Rule → Nat → α → Except ExpansionError α) (n : Nat) :
    ∀ (D : Nat) (X : α),
      whileRulesGuarded C F n D (activeAt (D + 1)) X
        = whileRulesGuarded C (fun _ d Y => F (activeAt d) d Y) n D (activeAt (D + 1)) X := by
  induction n with
  | zero => intro D X; rfl
  | succ n ih =>
      intro D X
      have e : Rule.tagged D :: activeAt (D + 1) = activeAt (D + 2) := rfl
      simp only [whileRulesGuarded, e]
      have hfun : whileRulesGuarded C F n (D + 1) (activeAt (D + 2))
          = whileRulesGuarded C (fun _ d Y => F (activeAt d) d Y) n (D + 1)
              (activeAt (D + 2)) := funext (ih (D + 1))
      rw [hfun]

end GuardedLemmas

/-- Claim C17 (depth-tag non-collision).  (1) When the chain started at `BOOST_PP_WHILE`
expands the step at tag `D`, the rules under expansion are exactly the entry rule and
rules `0..D-2`: giving the step that list instead of the one it receives changes
nothing.  (2) For every `D ≥ 1`, neither one of these rules nor the continuation rule
`D-1` is a rule `d ≥ D`.  (3) A loop started through rule `D` by a step at tag `D`, while
only the entry rule and rules below `D` are under expansion, never re-enters a rule,
whatever loops are nested inside its own step; so (4) no run started at `BOOST_PP_WHILE`
whose steps nest loops through the rule of their tag ever re-enters a rule. -/
theorem while_tags_do_not_collide {α : Type} (C : Nat → α → Nat) :
    (∀ (F : List Rule → Nat → α → Except ExpansionError α) (X0 : α),
        BOOST_PP_WHILE_guarded C F [] X0
          = BOOST_PP_WHILE_guarded C (fun _ d Y => F (activeAt d) d Y) [] X0) ∧
      (∀ D, 1 ≤ D → ∀ r, r ∈ Rule.tagged (D - 1) :: activeAt D →
        ∀ d, D ≤ d → r ≠ Rule.tagged d) ∧
      (∀ (N : LoopNest α) (D : Nat) (active : List Rule) (X : α) (r : Rule),
        Below D active →
        BOOST_PP_WHILE_D_guarded C N.step D active X
          ≠ Except.error (ExpansionError.reentered r)) ∧
      (∀ (N : LoopNest α) (X0 : α) (r : Rule),
        BOOST_PP_WHILE_guarded C N.step [] X0
          ≠ Except.error (ExpansionError.reentered r)) := by
  refine ⟨?_, ?_, ?_, ?_⟩
  · intro F X0
    unfold BOOST_PP_WHILE_guarded
    have e : Rule.entry :: ([] : List Rule) = activeAt 1 := rfl
    have hfun : BOOST_PP_WHILE_D_guarded C F 0 (activeAt 1)
        = BOOST_PP_WHILE_D_guarded C (fun _ d Y => F (activeAt d) d Y) 0 (activeAt 1) := by
      funext Y
      unfold BOOST_PP_WHILE_D_guarded
      rw [if_pos (by omega), if_pos (by omega)]
      exact whileRulesGuarded_activeAt C F 258 0 Y
    rw [e, hfun]
  · intro D hD r hr d hd hrd
    subst hrd
    rcases List.mem_cons.1 hr with h1 | h1
    · cases h1; omega
    · exact not_mem_of_below (below_activeAt D) (by omega) h1
  · intro N D active X r hb
    exact BOOST_PP_WHILE_D_guarded_no_reentry C N.step (loopNest_step_no_reentry N)
      D active X r hb
  · intro N X0 r
    unfold BOOST_PP_WHILE_guarded
    rw [if_neg (List.not_mem_nil _)]
    unfold BOOST_PP_IF
    have hb1 : Below 1 [Rule.entry] := fun _ hr => Or.inl (List.mem_singleton.1 hr)
    have hb0 : Below 0 [Rule.entry] := fun _ hr => Or.inl (List.mem_singleton.1 hr)
    by_cases h0 : C 1 X0 ≠ 0
    · rw [if_pos h0]
      have hstep := loopNest_step_no_reentry N [Rule.entry] 1 X0 r hb1
      cases hs : N.step [Rule.entry] 1 X0 with
      | error e =>
          rw [hs] at hstep
          exact hstep
      | ok Y =>
          exact BOOST_PP_WHILE_D_guarded_no_reentry C N.step (loopNest_step_no_reentry N)
            0 [Rule.entry] Y r hb0
    · rw [if_neg h0]
      intro h; cases h

/-- Witness of `while_tags_do_not_collide`: a countdown from 3 whose step runs a countdown
of its own through the rule of its tag, started through rule 0 under the entry rule,
does not re-enter rule 0. -/
theorem while_tags_do_not_collide_witness :
    Below 0 [Rule.entry] ∧
      BOOST_PP_WHILE_D_guarded countC (LoopNest.nest countC (LoopNest.prim countF)).step 0
          [Rule.entry] 3
        ≠ Except.error (ExpansionError.reentered (Rule.tagged 0)) :=
  ⟨fun _ hr => Or.inl (List.mem_singleton.1 hr),
    (while_tags_do_not_collide countC).2.2.1 (LoopNest.nest countC (LoopNest.prim countF)) 0
      [Rule.entry] 3 (Rule.tagged 0) (fun _ hr => Or.inl (List.mem_singleton.1 hr))⟩

/-- The list of rules under expansion matters: a step that always runs its loop through
rule 0, whatever its tag, re-enters rule 0 at tag 2, where rule 0 is under expansion. -/
theorem guarded_fixed_tag_reenters :
    BOOST_PP_WHILE_guarded countC
        (fun active _ X => Except.map (fun x => x - 1)
          (BOOST_PP_WHILE_D_guarded (fun _ _ => 0) (LoopNest.prim countF).step 0 active X))
        [] 2
      = Except.error (ExpansionError.reentered (Rule.tagged 0)) := by
  decide

/-! # The token comparison -/

/-- Claim C13: for a token `a` registered with an identity rule,
`BOOST_MPL_PP_TOKEN_EQUAL(a,a)` is 1, and for every different token `b`, registered or
not, `BOOST_MPL_PP_TOKEN_EQUAL(a,b)` and `BOOST_MPL_PP_TOKEN_EQUAL(b,a)` are 0; the six
assertions of the test (apple/apple and orange/orange equal; apple/abc, abc/apple,
apple/orange, orange/apple not equal) all hold. -/
theorem token_equal_correct {τ : Type} [DecidableEq τ] (registered : τ → Bool) (a : τ)
    (ha : registered a = true) :
    BOOST_MPL_PP_TOKEN_EQUAL registered a a = 1 ∧
      (∀ b, b ≠ a → BOOST_MPL_PP_TOKEN_EQUAL registered a b = 0 ∧
        BOOST_MPL_PP_TOKEN_EQUAL registered b a = 0) ∧
      tokenEqualTestMain = [true, true, true, true, true, true] := by
  refine ⟨?_, ?_, by decide⟩
  · simp [BOOST_MPL_PP_TOKEN_EQUAL, BOOST_MPL_PP_TOKEN_EQUAL_I, tokenProbe, ha,
      BOOST_MPL_PP_IS_SEQ, BOOST_PP_BITAND, BOOST_PP_COMPL, BOOST_PP_IF]
  · intro b hb
    have hba : ¬ a = b := fun h => hb h.symm
    by_cases hr : registered b = true
    · simp [BOOST_MPL_PP_TOKEN_EQUAL, BOOST_MPL_PP_TOKEN_EQUAL_I, tokenProbe, ha, hr, hb, hba,
        BOOST_MPL_PP_IS_SEQ, BOOST_PP_BITAND, BOOST_PP_COMPL, BOOST_PP_IF]
    · simp [BOOST_MPL_PP_TOKEN_EQUAL, tokenProbe, ha, hr,
        BOOST_MPL_PP_IS_SEQ, BOOST_PP_BITAND, BOOST_PP_IF]

/-- Witness of `token_equal_correct`: `apple` is registered, so it equals itself and
differs from `abc`. -/
theorem token_equal_correct_witness :
    BOOST_MPL_PP_TOKEN_EQUAL testRegistered TestToken.apple TestToken.apple = 1 ∧
      BOOST_MPL_PP_TOKEN_EQUAL testRegistered TestToken.apple TestToken.abc = 0 :=
  ⟨(token_equal_correct testRegistered TestToken.apple rfl).1,
    ((token_equal_correct testRegistered TestToken.apple rfl).2.1 TestToken.abc
      (by decide)).1⟩

/-! # The pointer containers -/

section PtrSetLemmas

variable {K : Type}

theorem clone_spec (h : PtrHeap K) (r : Nat) (ptrs : List Nat)
    (hr : h.container r = some ptrs) :
    h.clone r =
      ({ objects := h.objects ++ ptrs.map h.deref,
         containers := h.containers ++ [some (List.range' h.objects.length ptrs.length)] },
        { ptr := some h.containers.length }) := by
  unfold PtrHeap.clone
  rw [hr]

/-- The properties of `r.clone().release()` on the free store. -/
theorem new_clone_spec (h : PtrHeap K) (r : Nat) (ptrs : List Nat)
    (hr : h.container r = some ptrs) (hlive : ∀ p, p ∈ ptrs → h.deref p ≠ none)
    (h2 : PtrHeap K) (raw : Option Nat)
    (hnew : ((h.clone r).1.destroyOwned (h.clone r).2.release.2, (h.clone r).2.release.1)
      = (h2, raw)) :
    raw = some h.containers.length ∧
      h.container h.containers.length = none ∧
      h2.container h.containers.length
        = some (List.range' h.objects.length ptrs.length) ∧
      (List.range' h.objects.length ptrs.length).map h2.deref = ptrs.map h.deref ∧
      (∀ p, p ∈ List.range' h.objects.length ptrs.length →
        h.objects.length ≤ p ∧ h2.deref p ≠ none) ∧
      (List.range' h.objects.length ptrs.length).Nodup ∧
      (∀ c, c < h.containers.length → h2.container c = h.container c) ∧
      (∀ p, p < h.objects.length → h2.deref p = h.deref p) := by
  rw [clone_spec h r ptrs hr] at hnew
  simp only [OwningPtr.release, PtrHeap.destroyOwned, Prod.mk.injEq] at hnew
  obtain ⟨hh, rfl⟩ := hnew
  have hmap : (List.range' h.objects.length ptrs.length).map h2.deref = ptrs.map h.deref := by
    subst hh
    apply List.ext_getElem
    · simp
    · intro i h1 h2
      simp only [List.length_map, List.length_range'] at h1
      simp only [List.getElem_map, List.getElem_range', PtrHeap.deref, Nat.one_mul]
      rw [List.getD_append_right _ _ _ _ (by omega), Nat.add_sub_cancel_left,
        List.getD_eq_getElem _ _ (by simpa using h1), List.getElem_map]
      rfl
  have hnewlive : ∀ p, p ∈ List.range' h.objects.length ptrs.length → h2.deref p ≠ none := by
    intro p hp
    have hmem := List.mem_map_of_mem h2.deref hp
    rw [hmap] at hmem
    obtain ⟨q, hq, hqe⟩ := List.mem_map.1 hmem
    rw [← hqe]
    exact hlive q hq
  subst hh
  refine ⟨rfl, ?_, ?_, hmap, ?_, ?_, ?_, ?_⟩
  · simp [PtrHeap.container, List.getD]
  · simp [PtrHeap.container, List.getD]
  · intro p hp
    exact ⟨(List.mem_range'_1.1 hp).1, hnewlive p hp⟩
  · exact List.nodup_range' _ _
  · intro c hc
    simp only [PtrHeap.container]
    exact List.getD_append _ _ _ _ hc
  · intro p hp
    simp only [PtrHeap.deref]
    exact List.getD_append _ _ _ _ hp

end PtrSetLemmas

/-- Claim C14: for every live `ptr_set` (and every live `ptr_multiset`) `r` with live
elements, `new_clone(r)` returns `r.clone().release()`: the address of a container that
did not exist before and is alive afterwards (it is the caller's: the temporary owning
pointer has given it up and destroys nothing), whose elements are new objects, distinct
from each other and from every old object, alive, equal to the elements of `r` in the same
order, while every container and element that existed before, `r` and its elements
included, is unchanged. -/
theorem new_clone_deep_copies {K : Type} (h : PtrHeap K) (r : Nat) (ptrs : List Nat)
    (hr : h.container r = some ptrs) (hlive : ∀ p, p ∈ ptrs → h.deref p ≠ none) :
    new_clone_ptr_multiset h r = new_clone_ptr_set h r ∧
      (new_clone_ptr_set h r).2 = (h.clone r).2.release.1 ∧
      (new_clone_ptr_set h r).2 = some h.containers.length ∧
      h.container h.containers.length = none ∧
      (new_clone_ptr_set h r).1.container h.containers.length
        = some (List.range' h.objects.length ptrs.length) ∧
      (List.range' h.objects.length ptrs.length).map (new_clone_ptr_set h r).1.deref
        = ptrs.map h.deref ∧
      (∀ p, p ∈ List.range' h.objects.length ptrs.length →
        h.objects.length ≤ p ∧ (new_clone_ptr_set h r).1.deref p ≠ none) ∧
      (List.range' h.objects.length ptrs.length).Nodup ∧
      (∀ c, c < h.containers.length →
        (new_clone_ptr_set h r).1.container c = h.container c) ∧
      (∀ p, p < h.objects.length → (new_clone_ptr_set h r).1.deref p = h.deref p) := by
  have hs := new_clone_spec h r ptrs hr hlive (new_clone_ptr_set h r).1
    (new_clone_ptr_set h r).2 rfl
  exact ⟨rfl, rfl, hs⟩

/-- Witness of `new_clone_deep_copies`: a store with the elements 10, 20, 30 and one
container holding the second and the first; the clone is container 1 with the new
elements 3 and 4. -/
theorem new_clone_deep_copies_witness :
    (new_clone_ptr_set
        ({ objects := [some 10, some 20, some 30], containers := [some [1, 0]] } : PtrHeap Nat)
        0).2 = some 1 ∧
      (new_clone_ptr_set
        ({ objects := [some 10, some 20, some 30], containers := [some [1, 0]] } : PtrHeap Nat)
        0).1.container 1 = some [3, 4] :=
  ⟨(new_clone_deep_copies
      ({ objects := [some 10, some 20, some 30], containers := [some [1, 0]] } : PtrHeap Nat)
      0 [1, 0] rfl (by decide)).2.2.1,
    (new_clone_deep_copies
      ({ objects := [some 10, some 20, some 30], containers := [some [1, 0]] } : PtrHeap Nat)
      0 [1, 0] rfl (by decide)).2.2.2.2.1⟩

/-- Without `release()` the temporary owning pointer would destroy the clone: the
container it points to is dead after the end of its life. -/
theorem clone_without_release_is_destroyed :
    ((({ objects := [some 10, some 20, some 30], containers := [some [1, 0]] } :
        PtrHeap Nat).clone 0).1.destroyOwned
      (({ objects := [some 10, some 20, some 30], containers := [some [1, 0]] } :
        PtrHeap Nat).clone 0).2).container 1 = none := by
  decide

/-! # The vector trait, the free swaps, the compiler variants and the obsolete names -/

/-- Claim C21: for every typeof-based vector type `Vector`,
`pop_back_traits<aux::vector_tag>::algorithm<Vector>::type` is exactly `Vector::base`;
hence for a vector built by appending one element `t` to a vector `B`, `pop_back` returns
`B`, whose elements are those of the appended vector without the last one: `pop_back`
undoes the last `push_back`. -/
theorem pop_back_is_base {T : Type} (Vector : MplVector T) :
    pop_back_traits_vector_tag_algorithm Vector = Vector.base ∧
      (∀ (B : MplVector T) (t : T),
        (B.push_back t).base = some B ∧
          pop_back_traits_vector_tag_algorithm (B.push_back t) = some B ∧
          (B.push_back t).elements = B.elements ++ [t] ∧
          B.elements = (B.push_back t).elements.dropLast) ∧
      pop_back_traits_vector_tag_algorithm (MplVector.vector0 : MplVector T) = none := by
  refine ⟨rfl, ?_, rfl⟩
  intro B t
  refine ⟨rfl, rfl, rfl, ?_⟩
  simp [MplVector.push_back, MplVector.elements]

/-- In a store whose container addresses `l` and `r` are valid, the member swap
exchanges the two containers and leaves everything else alone. -/
theorem swapContainers_spec {K : Type} (h : PtrHeap K) (l r : Nat)
    (hl : l < h.containers.length) (hr : r < h.containers.length) :
    (h.swapContainers l r).container l = h.container r ∧
      (h.swapContainers l r).container r = h.container l ∧
      (h.swapContainers l r).objects = h.objects ∧
      (h.swapContainers l r).containers.length = h.containers.length ∧
      (∀ c, c ≠ l → c ≠ r → (h.swapContainers l r).container c = h.container c) := by
  refine ⟨?_, ?_, rfl, by simp [PtrHeap.swapContainers], ?_⟩
  · simp only [PtrHeap.swapContainers, PtrHeap.container, List.getD_eq_getElem?_getD,
      List.getElem?_set]
    by_cases hlr : r = l
    · subst hlr; simp [hl]
    · simp [hlr, hl]
  · simp only [PtrHeap.swapContainers, PtrHeap.container, List.getD_eq_getElem?_getD,
      List.getElem?_set]
    simp [hr]
  · intro c hcl hcr
    simp only [PtrHeap.swapContainers, PtrHeap.container, List.getD_eq_getElem?_getD,
      List.getElem?_set]
    simp [Ne.symm hcl, Ne.symm hcr]

/-- Swapping the same two containers twice gives back the store. -/
theorem swapContainers_twice {K : Type} (h : PtrHeap K) (l r : Nat)
    (hl : l < h.containers.length) (hr : r < h.containers.length) :
    (h.swapContainers l r).swapContainers l r = h := by
  obtain ⟨objs, cs⟩ := h
  simp only [PtrHeap.swapContainers, PtrHeap.mk.injEq, true_and]
  simp only at hl hr
  apply List.ext_getElem?
  intro i
  simp only [List.getD_eq_getElem?_getD, List.getElem?_set, List.length_set]
  by_cases hir : r = i
  · subst hir
    by_cases hlr : l = r
    · subst hlr; simp [hl]
    · have hrl : ¬ r = l := fun e => hlr e.symm
      simp [hlr, hrl, hl, hr]
  · by_cases hil : l = i
    · subst hil
      simp [hir, hl, hr]
    · simp [hir, hil]

/-- Claim C22: for all containers `l` and `r` of a store, the free function
`swap(l, r)`, for `ptr_set` and for `ptr_multiset`, has exactly the effect of
`l.swap(r)`: afterwards `l` holds the elements `r` held before and `r` those `l` held
before, every other container is unchanged, no element object is created, changed or
destroyed, and applying `swap(l, r)` twice restores the store. -/
theorem swap_exchanges_contents {K : Type} (h : PtrHeap K) (l r : Nat)
    (hl : l < h.containers.length) (hr : r < h.containers.length) :
    swap_ptr_set h l r = h.swapContainers l r ∧
      swap_ptr_multiset h l r = h.swapContainers l r ∧
      (swap_ptr_set h l r).container l = h.container r ∧
      (swap_ptr_set h l r).container r = h.container l ∧
      (∀ c, c ≠ l → c ≠ r → (swap_ptr_set h l r).container c = h.container c) ∧
      (swap_ptr_set h l r).objects = h.objects ∧
      swap_ptr_set (swap_ptr_set h l r) l r = h ∧
      swap_ptr_multiset (swap_ptr_multiset h l r) l r = h := by
  obtain ⟨h1, h2, h3, _, h5⟩ := swapContainers_spec h l r hl hr
  exact ⟨rfl, rfl, h1, h2, h5, h3, swapContainers_twice h l r hl hr,
    swapContainers_twice h l r hl hr⟩

/-- Witness of `swap_exchanges_contents`: a store with two containers, holding the
elements at 0 and 1 and the element at 2; after the swap the first holds the element at
2. -/
theorem swap_exchanges_contents_witness :
    (swap_ptr_set
        ({ objects := [some 10, some 20, some 30], containers := [some [0, 1], some [2]] } :
          PtrHeap Nat) 0 1).container 0 = some [2] :=
  (swap_exchanges_contents
    ({ objects := [some 10, some 20, some 30], containers := [some [0, 1], some [2]] } :
      PtrHeap Nat) 0 1 (by decide) (by decide)).2.2.1

/-- Claim C23: the two compiler-specific definitions of the helpers of
`BOOST_PP_LIST_REST_N` are equivalent: for every depth tag and every state the Metrowerks
variant returns the same condition value and the same next state as the default variant;
on a state `(L, N)` with `L` a non-empty list `H :: T` both give the condition `N` and
the next state `(T, N-1)`, whatever the depth tag. -/
theorem rest_n_variants_agree {τ : Type} (D : Nat) (X : Option (List τ) × Nat) :
    BOOST_PP_LIST_REST_N_C_MWERKS D X = BOOST_PP_LIST_REST_N_C D X ∧
      BOOST_PP_LIST_REST_N_F_MWERKS D X = BOOST_PP_LIST_REST_N_F D X ∧
      ∀ (H : τ) (T : List τ) (N D2 : Nat),
        BOOST_PP_LIST_REST_N_C_MWERKS D2 (some (H :: T), N) = N ∧
          BOOST_PP_LIST_REST_N_C D2 (some (H :: T), N) = N ∧
          BOOST_PP_LIST_REST_N_F_MWERKS D2 (some (H :: T), N) = (some T, N - 1) ∧
          BOOST_PP_LIST_REST_N_F D2 (some (H :: T), N) = (some T, N - 1) := by
  refine ⟨rfl, rfl, ?_⟩
  intro H T N D2
  exact ⟨rfl, rfl, rfl, rfl⟩

/-- Claim C24: each obsolete name expands to the same result as its replacement for all
arguments: `BOOST_PREPROCESSOR_NOR(X,Y)` is `BOOST_PP_NOR(X,Y)`, and
`BOOST_PREPROCESSOR_LESS_EQUAL(X,Y)` is `BOOST_PP_LESS_EQUAL(X,Y)`, which is
`BOOST_PP_LESS_EQUAL_D(0,X,Y)`. -/
theorem obsolete_names_agree (X Y : Nat) :
    BOOST_PREPROCESSOR_NOR X Y = BOOST_PP_NOR X Y ∧
      BOOST_PREPROCESSOR_LESS_EQUAL X Y = BOOST_PP_LESS_EQUAL X Y ∧
      BOOST_PP_LESS_EQUAL X Y = BOOST_PP_LESS_EQUAL_D 0 X Y := by
  exact ⟨rfl, rfl, rfl⟩

/-! # Nested loops -/

section NestedStepLemmas

variable {α β : Type}

/-- With a step that uses no rule of the family, a chain started at rule `D` while only
rules below `D` are under expansion expands as the plain rules do. -/
theorem whileRulesGuarded_pureStep (C : Nat → α → Nat) (F : Nat → α → α) (n : Nat) :
    ∀ (D : Nat) (active : List Rule) (X : α), Below D active →
      whileRulesGuarded C (pureStep F) n D active X = liftError (whileRules C F n D X) := by
  induction n with
  | zero =>
      intro D active X hb
      simp only [whileRulesGuarded, whileRules, liftError]
      rw [if_neg (not_mem_of_below hb (le_refl _))]
  | succ n ih =>
      intro D active X hb
      simp only [whileRulesGuarded, whileRules]
      rw [if_neg (not_mem_of_below hb (le_refl _))]
      by_cases h0 : C (D + 2) X = 0
      · rw [BOOST_PP_WHILE_C_false h0]
        simp [BOOST_PP_IF, h0, liftError]
      · rw [BOOST_PP_WHILE_C_true h0]
        simp only [BOOST_PP_IF, h0, ne_eq, not_false_eq_true, if_true, pureStep]
        exact ih (D + 1) (Rule.tagged D :: active) (F (D + 2) X) (below_cons hb (by omega))

theorem BOOST_PP_WHILE_D_guarded_pureStep (C : Nat → α → Nat) (F : Nat → α → α) (D : Nat)
    (active : List Rule) (X : α) (hb : Below D active) :
    BOOST_PP_WHILE_D_guarded C (pureStep F) D active X
      = liftError (BOOST_PP_WHILE_D C F D X) := by
  unfold BOOST_PP_WHILE_D_guarded BOOST_PP_WHILE_D
  by_cases h8 : D ≤ 258
  · rw [if_pos h8, if_pos h8]
    exact whileRulesGuarded_pureStep C F _ D active X hb
  · rw [if_neg h8, if_neg h8]
    by_cases h9 : D = 259
    · rw [if_pos h9, if_pos h9, if_neg (not_mem_of_below hb (by omega))]
      rfl
    · rw [if_neg h9, if_neg h9]
      rfl

theorem BOOST_PP_WHILE_guarded_pureStep (C : Nat → α → Nat) (F : Nat → α → α) (X : α) :
    BOOST_PP_WHILE_guarded C (pureStep F) [] X = liftError (BOOST_PP_WHILE C F X) := by
  unfold BOOST_PP_WHILE_guarded BOOST_PP_WHILE
  rw [if_neg (List.not_mem_nil _)]
  by_cases h0 : C 1 X = 0
  · rw [BOOST_PP_WHILE_C_false h0]
    simp [BOOST_PP_IF, h0, liftError]
  · rw [BOOST_PP_WHILE_C_true h0]
    simp only [BOOST_PP_IF, h0, ne_eq, not_false_eq_true, if_true, pureStep]
    exact BOOST_PP_WHILE_D_guarded_pureStep C F 0 [Rule.entry] (F 1 X)
      (fun _ hr => Or.inl (List.mem_singleton.1 hr))

theorem below_activeAt_self (D : Nat) : Below D (activeAt D) :=
  below_mono (below_activeAt D) (Nat.sub_le D 1)

/-- The chain that the entry rule started follows a given sequence of states as long as
the condition is true and the step, expanded under the entry rule and the rules below
its tag, gives the next state of the sequence. -/
theorem whileRulesGuarded_follows (C : Nat → α → Nat)
    (F : List Rule → Nat → α → Except ExpansionError α) (n : Nat) :
    ∀ (D : Nat) (tr : Nat → α) (m : Nat), m < n →
      (∀ j, j < m → C (D + 2 + j) (tr j) ≠ 0 ∧
        F (activeAt (D + 2 + j)) (D + 2 + j) (tr j) = Except.ok (tr (j + 1))) →
      C (D + 2 + m) (tr m) = 0 →
      whileRulesGuarded C F n D (activeAt (D + 1)) (tr 0) = Except.ok (tr m) := by
  induction n with
  | zero => intro D tr m hm; omega
  | succ n ih =>
      intro D tr m hm hstep hend
      have hnot : Rule.tagged D ∉ activeAt (D + 1) :=
        not_mem_of_below (below_activeAt (D + 1)) (by omega)
      have e : Rule.tagged D :: activeAt (D + 1) = activeAt (D + 2) := rfl
      simp only [whileRulesGuarded]
      rw [if_neg hnot, e]
      cases m with
      | zero =>
          have h0 : C (D + 2) (tr 0) = 0 := hend
          simp [BOOST_PP_IF, h0]
      | succ m =>
          obtain ⟨h0, hF⟩ := hstep 0 (Nat.succ_pos m)
          have h0b : C (D + 2) (tr 0) ≠ 0 := h0
          have hFb : F (activeAt (D + 2)) (D + 2) (tr 0) = Except.ok (tr 1) := hF
          simp only [BOOST_PP_IF, h0b, ne_eq, not_false_eq_true, if_true, hFb]
          exact ih (D + 1) (fun j => tr (j + 1)) m (by omega)
            (fun j hj => by
              have := hstep (j + 1) (by omega)
              have e2 : D + 1 + 2 + j = D + 2 + (j + 1) := by omega
              rw [e2]; exact this)
            (by
              have e2 : D + 1 + 2 + m = D + 2 + (m + 1) := by omega
              rw [e2]; exact hend)

/-- The entry rule, with no rule under expansion, follows a given sequence of at most
258 steps. -/
theorem BOOST_PP_WHILE_guarded_follows (C : Nat → α → Nat)
    (F : List Rule → Nat → α → Except ExpansionError α) (tr : Nat → α) (k : Nat)
    (hk : k ≤ 258)
    (hstep : ∀ j, j < k → C (j + 1) (tr j) ≠ 0 ∧
      F (activeAt (j + 1)) (j + 1) (tr j) = Except.ok (tr (j + 1)))
    (hend : C (k + 1) (tr k) = 0) :
    BOOST_PP_WHILE_guarded C F [] (tr 0) = Except.ok (tr k) := by
  unfold BOOST_PP_WHILE_guarded
  rw [if_neg (List.not_mem_nil _)]
  cases k with
  | zero =>
      have h0 : C 1 (tr 0) = 0 := hend
      simp [BOOST_PP_IF, h0]
  | succ k =>
      obtain ⟨h0, hF⟩ := hstep 0 (Nat.succ_pos k)
      have h0b : C 1 (tr 0) ≠ 0 := h0
      have hFb : F [Rule.entry] 1 (tr 0) = Except.ok (tr 1) := hF
      simp only [BOOST_PP_IF, h0b, ne_eq, not_false_eq_true, if_true, hFb]
      show BOOST_PP_WHILE_D_guarded C F 0 (activeAt 1) (tr 1) = _
      unfold BOOST_PP_WHILE_D_guarded
      rw [if_pos (by omega)]
      exact whileRulesGuarded_follows C F 258 0 (fun j => tr (j + 1)) k (by omega)
        (fun j hj => by
          have := hstep (j + 1) (by omega)
          have e2 : 0 + 2 + j = j + 1 + 1 := by omega
          rw [e2]; exact this)
        (by
          have e2 : 0 + 2 + k = k + 1 + 1 := by omega
          rw [e2]; exact hend)

end NestedStepLemmas

/-- Claim C6: nesting does not change results.  For a depth-independent inner condition
`Ci` and step `Fi`: (1) when the inner loop from `Y` ends after `m` steps and
`D + m ≤ 257`, `BOOST_PP_WHILE##D(Ci,Fi,Y)` invoked while the entry rule and rules below
`D` are under expansion, in particular from inside an outer step at tag `D` of a chain
started at `BOOST_PP_WHILE`, returns the same state as the unnested top-level
`BOOST_PP_WHILE(Ci,Fi,Y)`, namely the unrolled state; (2) when `tr 0, ..., tr k` are the
states of an outer loop whose step at tag `j+1` runs the inner loop from `pre (tr j)`
for `m` steps with `j + 1 + m ≤ 257`, the outer loop whose step calls the inner loop
through `BOOST_PP_WHILE##D` of its own tag, under the rules then under expansion,
returns the same final state `tr k` as the outer loop whose step uses the unnested
inner result. -/
theorem while_nesting_preserves_results {α β : Type} (Ci : Nat → β → Nat) (Fi : Nat → β → β)
    (hCi : ∀ d d2 y, Ci d y = Ci d2 y) (hFi : ∀ d d2 y, Fi d y = Fi d2 y) :
    (∀ (D : Nat) (active : List Rule) (Y : β) (m : Nat), Below D active →
        EndsAfter Ci Fi 1 Y m → D + m ≤ 257 →
        BOOST_PP_WHILE_D_guarded Ci (pureStep Fi) D active Y
            = liftError (BOOST_PP_WHILE Ci Fi Y) ∧
          BOOST_PP_WHILE_D_guarded Ci (pureStep Fi) D (activeAt D) Y
            = BOOST_PP_WHILE_guarded Ci (pureStep Fi) [] Y ∧
          BOOST_PP_WHILE Ci Fi Y = Except.ok (unroll Fi 1 Y m)) ∧
    (∀ (Co : Nat → α → Nat) (pre : α → β) (post : α → Except ExpansionError β → α)
        (tr : Nat → α) (k : Nat),
        (∀ j, j < k → Co (j + 1) (tr j) ≠ 0 ∧
          ∃ m, EndsAfter Ci Fi 1 (pre (tr j)) m ∧ j + 1 + m ≤ 257 ∧
            tr (j + 1) = post (tr j) (Except.ok (unroll Fi 1 (pre (tr j)) m))) →
        Co (k + 1) (tr k) = 0 →
        BOOST_PP_WHILE_guarded Co (nestedStep Ci Fi pre post) [] (tr 0)
            = BOOST_PP_WHILE_guarded Co (unnestedStep Ci Fi pre post) [] (tr 0) ∧
          BOOST_PP_WHILE_guarded Co (nestedStep Ci Fi pre post) [] (tr 0)
            = Except.ok (tr k)) := by
  have inner : ∀ (D : Nat) (active : List Rule) (Y : β) (m : Nat), Below D active →
      EndsAfter Ci Fi 1 Y m → D + m ≤ 257 →
      BOOST_PP_WHILE_D_guarded Ci (pureStep Fi) D active Y
        = Except.ok (unroll Fi 1 Y m) := by
    intro D active Y m hb he hm
    rw [BOOST_PP_WHILE_D_guarded_pureStep Ci Fi D active Y hb,
      (BOOST_PP_WHILE_D_eq_entry Ci Fi hCi hFi D Y m he hm).1]
    rfl
  refine ⟨?_, ?_⟩
  · intro D active Y m hb he hm
    have h2 := (BOOST_PP_WHILE_D_eq_entry Ci Fi hCi hFi D Y m he hm).2
    refine ⟨?_, ?_, h2⟩
    · rw [inner D active Y m hb he hm, h2]; rfl
    · rw [inner D (activeAt D) Y m (below_activeAt_self D) he hm,
        BOOST_PP_WHILE_guarded_pureStep, h2]
      rfl
  · intro Co pre post tr k hstep hend
    have hk : k ≤ 258 := by
      cases k with
      | zero => omega
      | succ k =>
          obtain ⟨_, m, _, hb, _⟩ := hstep k (Nat.lt_succ_self k)
          omega
    have hn : BOOST_PP_WHILE_guarded Co (nestedStep Ci Fi pre post) [] (tr 0)
        = Except.ok (tr k) := by
      apply BOOST_PP_WHILE_guarded_follows Co _ tr k hk _ hend
      intro j hj
      obtain ⟨hc, m, he, hb, ht⟩ := hstep j hj
      refine ⟨hc, ?_⟩
      simp only [nestedStep]
      rw [inner (j + 1) (activeAt (j + 1)) (pre (tr j)) m (below_activeAt_self (j + 1)) he hb,
        ht]
    have hu : BOOST_PP_WHILE_guarded Co (unnestedStep Ci Fi pre post) [] (tr 0)
        = Except.ok (tr k) := by
      apply BOOST_PP_WHILE_guarded_follows Co _ tr k hk _ hend
      intro j hj
      obtain ⟨hc, m, he, hb, ht⟩ := hstep j hj
      refine ⟨hc, ?_⟩
      simp only [unnestedStep]
      rw [(BOOST_PP_WHILE_D_eq_entry Ci Fi hCi hFi (j + 1) (pre (tr j)) m he hb).2, ht]
      rfl
    exact ⟨hn.trans hu.symm, hn⟩

/-- Witness of `while_nesting_preserves_results`: an outer countdown from 3 whose step
runs an inner countdown from the current counter and then decrements the counter. -/
theorem while_nesting_preserves_results_witness :
    BOOST_PP_WHILE_guarded countC (nestedStep countC countF id countPost) [] 3
        = BOOST_PP_WHILE_guarded countC (unnestedStep countC countF id countPost) [] 3 ∧
      BOOST_PP_WHILE_guarded countC (nestedStep countC countF id countPost) [] 3
        = Except.ok 0 :=
  (@while_nesting_preserves_results Nat Nat countC countF (fun _ _ _ => rfl)
      (fun _ _ _ => rfl)).2 countC id countPost (fun j => 3 - j) 3
    (fun j hj => by
      refine ⟨by simp only [countC]; omega, 3 - j, endsAfter_count 1 (3 - j), by omega, ?_⟩
      simp only [id, unroll_countF, countPost]; omega)
    (by decide)

/-- A step may discard what its inner loop expands to: started at rule 256 with the
counter 1, the step at tag 258 runs its inner loop through the poisoned rule 258 and
discards the text, and rule 257 returns the state 0. -/
theorem nested_step_discards_failed_inner :
    BOOST_PP_WHILE_D_guarded countC (nestedStep countC countF id dropPost) 256 [] 1
      = Except.ok 0 := by
  decide

/-- The rules under expansion matter for a nested loop: an outer countdown from 2 whose
step runs its inner loop through rule 0, whatever its tag, is handed at tag 2 the text
of a rule that was left unexpanded and ends in the flagged state `(0,1)`, while the run
with the unnested inner loop ends in `(0,0)`. -/
theorem nested_step_fixed_rule_differs :
    BOOST_PP_WHILE_guarded flagC
        (fun active _ X => Except.ok (flagPost X
          (BOOST_PP_WHILE_D_guarded countC (pureStep countF) 0 active X.1))) [] (2, 0)
        = Except.ok (0, 1) ∧
      BOOST_PP_WHILE_guarded flagC (unnestedStep countC countF Prod.fst flagPost) [] (2, 0)
        = Except.ok (0, 0) := by
  decide

end BoostPP
